import Mathlib

/-!
# spot-termination-exporter: the termination collector (`metadata.go`)

A shallow embedding of `metadata.go` and of the parts of the Go runtime and
libraries it calls (strings, slices and `append`, `net/http`, `io/ioutil`,
`encoding/json`, `time`, `unicode/utf8`, `prometheus`), followed by theorems
about `NewTerminationCollector`, `Describe`, `getMetadata` and `Collect`.

Conventions of the embedding:
* a Go `string` / `[]byte` that holds run-time data (endpoint, paths, bodies,
  label values) is a list of bytes (`GoString`); it need not be valid UTF-8;
  constants of the source that are never inspected (metric and label names,
  help texts, log formats) are Lean strings;
* a `float64` sample value is kept exact (`Value`), rounding is not modelled;
* log output is the list of (level, format string) pairs in call order;
* a channel send appends to the list of sent items;
* a panic of `MustNewConstMetric` stops the run and is recorded in the result.
-/

namespace SpotTermination

/-! ## Go strings and `unicode/utf8` -/

/-- A Go string: its bytes in order, each a number from 0 to 255. -/
abbrev GoString := List Nat

/-- The UTF-8 encoding of a code point (`utf8.AppendRune`): surrogates and
values above U+10FFFF are written as U+FFFD. -/
def encodeRune (r : Nat) : List Nat :=
  if r < 0x80 then [r]
  else if r < 0x800 then [0xC0 + r / 64, 0x80 + r % 64]
  else if (0xD800 ≤ r ∧ r < 0xE000) ∨ 0x10FFFF < r then [0xEF, 0xBF, 0xBD]
  else if r < 0x10000 then [0xE0 + r / 4096, 0x80 + r / 64 % 64, 0x80 + r % 64]
  else [0xF0 + r / 262144, 0x80 + r / 4096 % 64, 0x80 + r / 64 % 64, 0x80 + r % 64]

/-- The bytes of a string constant of the source. -/
def bytes (s : String) : GoString :=
  s.data.flatMap fun c => encodeRune c.toNat

/-- For a first byte, the ranges the following bytes of the encoded code point
must lie in (the table `first` / `acceptRanges` of `unicode/utf8`); `none` for a
byte that starts no encoding. -/
def following (b : Nat) : Option (List (Nat × Nat)) :=
  if b < 0x80 then some []
  else if 0xC2 ≤ b ∧ b ≤ 0xDF then some [(0x80, 0xBF)]
  else if b = 0xE0 then some [(0xA0, 0xBF), (0x80, 0xBF)]
  else if b = 0xED then some [(0x80, 0x9F), (0x80, 0xBF)]
  else if 0xE1 ≤ b ∧ b ≤ 0xEF then some [(0x80, 0xBF), (0x80, 0xBF)]
  else if b = 0xF0 then some [(0x90, 0xBF), (0x80, 0xBF), (0x80, 0xBF)]
  else if 0xF1 ≤ b ∧ b ≤ 0xF3 then some [(0x80, 0xBF), (0x80, 0xBF), (0x80, 0xBF)]
  else if b = 0xF4 then some [(0x80, 0x8F), (0x80, 0xBF), (0x80, 0xBF)]
  else none

/-- Validity of the bytes that remain, given the ranges still owed by the code
point under way. -/
def validFrom : List (Nat × Nat) → List Nat → Bool
  | [], [] => true
  | _ :: _, [] => false
  | [], b :: rest =>
    match following b with
    | some ranges => validFrom ranges rest
    | none => false
  | range :: more, b :: rest =>
    if range.1 ≤ b ∧ b ≤ range.2 then validFrom more rest else false

/-- `utf8.ValidString(s)`. -/
def ValidString (s : GoString) : Bool :=
  validFrom [] s

/-- Do the first bytes lie in the given ranges, one byte per range? -/
def inRanges : List (Nat × Nat) → List Nat → Bool
  | [], _ => true
  | _ :: _, [] => false
  | range :: more, b :: rest =>
    if range.1 ≤ b ∧ b ≤ range.2 then inRanges more rest else false

/-- The code point made of a first byte and its following bytes. -/
def runeValue (b : Nat) (more : List Nat) : Nat :=
  match more with
  | [b1] => b % 32 * 64 + b1 % 64
  | [b1, b2] => b % 16 * 4096 + b1 % 64 * 64 + b2 % 64
  | [b1, b2, b3] => b % 8 * 262144 + b1 % 64 * 4096 + b2 % 64 * 64 + b3 % 64
  | _ => b

/-- `utf8.DecodeRune(s)`: the first code point and the number of bytes it takes;
bytes that encode nothing give U+FFFD and width 1. -/
def decodeRune : List Nat → Nat × Nat
  | [] => (0xFFFD, 0)
  | b :: rest =>
    match following b with
    | some ranges =>
      if inRanges ranges rest then (runeValue b (rest.take ranges.length), ranges.length + 1)
      else (0xFFFD, 1)
    | none => (0xFFFD, 1)

/-! ## Go slices of strings -/

/-- A Go slice header: backing array (an index into the heap), length, capacity. -/
structure Slice where
  ptr : Nat
  len : Nat
  cap : Nat
deriving DecidableEq, Repr

/-- The heap of string arrays; an array has as many cells as its capacity. -/
abbrev Heap := List (List String)

/-- The elements of a slice: the first `len` cells of its backing array. -/
def Slice.read (h : Heap) (s : Slice) : List String :=
  (h.getD s.ptr []).take s.len

/-- Capacity chosen by `append` when the backing array is full (the runtime
doubles small capacities; at least the needed length). -/
def growCap (oldCap needed : Nat) : Nat :=
  if 2 * oldCap < needed then needed else 2 * oldCap

/-- Go `append(s, x)`. With spare capacity the element is written into the
shared backing array; otherwise the elements are copied to a fresh array. -/
def goAppend (h : Heap) (s : Slice) (x : String) : Slice × Heap :=
  if s.len < s.cap then
    (⟨s.ptr, s.len + 1, s.cap⟩, h.set s.ptr ((h.getD s.ptr []).set s.len x))
  else
    let newCap := growCap s.cap (s.len + 1)
    let cells := s.read h ++ [x]
    (⟨h.length, s.len + 1, newCap⟩,
      h ++ [cells ++ List.replicate (newCap - cells.length) ""])

/-! ## Package-level state -/

/-- The package-level variables of `metadata.go` together with the heap. -/
structure Globals where
  heap : Heap
  labels : Slice
deriving DecidableEq, Repr

/-- State after package initialisation: `labels` is a slice literal of four
names, so its length and capacity are both 4. -/
def initGlobals : Globals :=
  { heap := [["availability_zone", "hostname", "instance_id", "instance_type"]]
    labels := ⟨0, 4, 4⟩ }

/-! ## prometheus descriptors and metrics -/

/-- A `prometheus.Desc`: name, help and the slice of variable label names it
was given (kept by reference). -/
structure Desc where
  fqName : String
  help : String
  variableLabels : Slice
deriving DecidableEq, Repr

/-- `prometheus.NewDesc(fqName, help, variableLabels, nil)`. -/
def NewDesc (fqName help : String) (variableLabels : Slice) : Desc :=
  ⟨fqName, help, variableLabels⟩

/-- Label names of a descriptor as read from the heap. -/
def Desc.labelNames (h : Heap) (d : Desc) : List String :=
  d.variableLabels.read h

/-- A Go duration: nanoseconds, in the range of `int64`. -/
abbrev Duration := Int

/-- The `float64` value of a sample, kept exact: an integer literal of the
source, or `d.Seconds()` of a duration `d` (that is, `d / 10^9`). -/
inductive Value where
  | lit (n : Int)
  | seconds (d : Duration)
deriving DecidableEq, Repr

/-- A constant metric as built by `MustNewConstMetric`. -/
structure Metric where
  desc : Desc
  value : Value
  labelValues : List GoString
deriving DecidableEq, Repr

/-- Why `MustNewConstMetric` panics: the checks of `validateLabelValues`. -/
inductive PanicReason where
  | inconsistentCardinality
  | invalidUTF8
deriving DecidableEq, Repr

/-- `prometheus.MustNewConstMetric(desc, GaugeValue, value, labelValues...)`.
It panics when the number of label values differs from the number of label
names of the descriptor, and when a label value is not valid UTF-8, in this
order. (The descriptors of this program have valid, distinct names, so the
descriptor carries no error of its own.) -/
def MustNewConstMetric (desc : Desc) (value : Value) (labelValues : List GoString) :
    Except PanicReason Metric :=
  if labelValues.length ≠ desc.variableLabels.len then .error .inconsistentCardinality
  else if labelValues.all ValidString then .ok ⟨desc, value, labelValues⟩
  else .error .invalidUTF8

/-! ## encoding/json: the scanner

The scanner of `encoding/json` reads the input one byte at a time; its state is
a step function and a stack of enclosing containers. The embedding keeps that
shape and builds the value on the way. -/

/-- The byte of an ASCII character. -/
def ch (c : Char) : Nat :=
  c.toNat

/-- A JSON value; strings, object keys and numbers keep their raw bytes (what
stands between the quotes, escapes not yet resolved). -/
inductive JValue where
  | null
  | bool (b : Bool)
  | number (raw : List Nat)
  | string (raw : List Nat)
  | array (elems : List JValue)
  | object (members : List (List Nat × JValue))

/-- An enclosing container on the scanner's stack, with what was read of it. -/
inductive Frame where
  | objKey (ms : List (List Nat × JValue))
  | objColon (ms : List (List Nat × JValue)) (key : List Nat)
  | objValue (ms : List (List Nat × JValue)) (key : List Nat)
  | objNext (ms : List (List Nat × JValue))
  | arrValue (es : List JValue)
  | arrNext (es : List JValue)

/-- Position inside a number literal. -/
inductive NumState where
  | neg | zero | one | dot | dot0 | e | eSign | e0
deriving DecidableEq

/-- The step function the scanner is in. -/
inductive Mode where
  | beginValue
  | beginValueOrEmpty
  | beginStringOrEmpty
  | beginString
  | endValue
  | endTop
  | inString (acc : List Nat)
  | inStringEsc (acc : List Nat)
  | inStringEscU (acc : List Nat) (more : Nat)
  | num (st : NumState) (acc : List Nat)
  | lit (rest : List Nat) (v : JValue)

/-- State of the scanner: step function, open containers, and the top-level
value once it is complete. -/
structure Scanner where
  mode : Mode
  stack : List Frame
  result : Option JValue

/-- JSON white space. -/
def isSpace (c : Nat) : Bool :=
  c = ch ' ' || c = ch '\t' || c = ch '\r' || c = ch '\n'

/-- A decimal digit. -/
def isDigit (c : Nat) : Bool :=
  ch '0' ≤ c && c ≤ ch '9'

/-- A hexadecimal digit. -/
def isHex (c : Nat) : Bool :=
  isDigit c || (ch 'a' ≤ c && c ≤ ch 'f') || (ch 'A' ≤ c && c ≤ ch 'F')

/-- A value is complete: hand it to the enclosing container. -/
def deliver (v : JValue) : List Frame → Option Scanner
  | [] => some ⟨.endTop, [], some v⟩
  | .objKey ms :: r =>
    match v with
    | .string k => some ⟨.endValue, .objColon ms k :: r, none⟩
    | _ => none
  | .objValue ms k :: r => some ⟨.endValue, .objNext (ms ++ [(k, v)]) :: r, none⟩
  | .arrValue es :: r => some ⟨.endValue, .arrNext (es ++ [v]) :: r, none⟩
  | _ => none

/-- Containers may nest this deep (`maxNestingDepth`). -/
def maxNestingDepth : Nat := 10000

/-- The scanner's `stateBeginValue`. Opening a container beyond the nesting
limit is an error. -/
def stepBeginValue (stack : List Frame) (c : Nat) : Option Scanner :=
  if isSpace c then some ⟨.beginValue, stack, none⟩
  else if c = ch '{' then
    (if stack.length < maxNestingDepth then some ⟨.beginStringOrEmpty, .objKey [] :: stack, none⟩
     else none)
  else if c = ch '[' then
    (if stack.length < maxNestingDepth then some ⟨.beginValueOrEmpty, .arrValue [] :: stack, none⟩
     else none)
  else if c = ch '"' then some ⟨.inString [], stack, none⟩
  else if c = ch '-' then some ⟨.num .neg [c], stack, none⟩
  else if c = ch '0' then some ⟨.num .zero [c], stack, none⟩
  else if c = ch 't' then some ⟨.lit [ch 'r', ch 'u', ch 'e'] (.bool true), stack, none⟩
  else if c = ch 'f' then
    some ⟨.lit [ch 'a', ch 'l', ch 's', ch 'e'] (.bool false), stack, none⟩
  else if c = ch 'n' then some ⟨.lit [ch 'u', ch 'l', ch 'l'] .null, stack, none⟩
  else if isDigit c then some ⟨.num .one [c], stack, none⟩
  else none

/-- The scanner's `stateBeginString`. -/
def stepBeginString (stack : List Frame) (c : Nat) : Option Scanner :=
  if isSpace c then some ⟨.beginString, stack, none⟩
  else if c = ch '"' then some ⟨.inString [], stack, none⟩
  else none

/-- The scanner's `stateEndValue` (and `stateEndTop` when no container is open). -/
def stepEndValue (stack : List Frame) (result : Option JValue) (c : Nat) : Option Scanner :=
  if isSpace c then some ⟨(if stack.isEmpty then .endTop else .endValue), stack, result⟩
  else
    match stack with
    | .objColon ms k :: r =>
      if c = ch ':' then some ⟨.beginValue, .objValue ms k :: r, none⟩ else none
    | .objNext ms :: r =>
      if c = ch ',' then some ⟨.beginString, .objKey ms :: r, none⟩
      else if c = ch '}' then deliver (.object ms) r
      else none
    | .arrNext es :: r =>
      if c = ch ',' then some ⟨.beginValue, .arrValue es :: r, none⟩
      else if c = ch ']' then deliver (.array es) r
      else none
    | _ => none

/-- A number literal ends before `c`: deliver it, then let `stateEndValue` see `c`. -/
def endNumber (stack : List Frame) (acc : List Nat) (c : Nat) : Option Scanner :=
  match deliver (.number acc) stack with
  | some s => stepEndValue s.stack s.result c
  | none => none

/-- The number states of the scanner (`stateNeg`, `state0`, `state1`, `stateDot`,
`stateDot0`, `stateE`, `stateESign`, `stateE0`). -/
def stepNum (stack : List Frame) (st : NumState) (acc : List Nat) (c : Nat) : Option Scanner :=
  match st with
  | .neg =>
    if c = ch '0' then some ⟨.num .zero (acc ++ [c]), stack, none⟩
    else if isDigit c then some ⟨.num .one (acc ++ [c]), stack, none⟩
    else none
  | .one =>
    if isDigit c then some ⟨.num .one (acc ++ [c]), stack, none⟩
    else if c = ch '.' then some ⟨.num .dot (acc ++ [c]), stack, none⟩
    else if c = ch 'e' || c = ch 'E' then some ⟨.num .e (acc ++ [c]), stack, none⟩
    else endNumber stack acc c
  | .zero =>
    if c = ch '.' then some ⟨.num .dot (acc ++ [c]), stack, none⟩
    else if c = ch 'e' || c = ch 'E' then some ⟨.num .e (acc ++ [c]), stack, none⟩
    else endNumber stack acc c
  | .dot => if isDigit c then some ⟨.num .dot0 (acc ++ [c]), stack, none⟩ else none
  | .dot0 =>
    if isDigit c then some ⟨.num .dot0 (acc ++ [c]), stack, none⟩
    else if c = ch 'e' || c = ch 'E' then some ⟨.num .e (acc ++ [c]), stack, none⟩
    else endNumber stack acc c
  | .e =>
    if c = ch '+' || c = ch '-' then some ⟨.num .eSign (acc ++ [c]), stack, none⟩
    else if isDigit c then some ⟨.num .e0 (acc ++ [c]), stack, none⟩
    else none
  | .eSign => if isDigit c then some ⟨.num .e0 (acc ++ [c]), stack, none⟩ else none
  | .e0 =>
    if isDigit c then some ⟨.num .e0 (acc ++ [c]), stack, none⟩
    else endNumber stack acc c

/-- One step of the scanner on the byte `c`; `none` is a syntax error. Inside a
string every byte from 0x20 on is taken, valid UTF-8 or not. -/
def step (s : Scanner) (c : Nat) : Option Scanner :=
  match s.mode with
  | .beginValue => stepBeginValue s.stack c
  | .beginValueOrEmpty =>
    if isSpace c then some s
    else if c = ch ']' then
      match s.stack with
      | .arrValue _ :: r => deliver (.array []) r
      | _ => none
    else stepBeginValue s.stack c
  | .beginStringOrEmpty =>
    if isSpace c then some s
    else if c = ch '}' then
      match s.stack with
      | .objKey _ :: r => deliver (.object []) r
      | _ => none
    else stepBeginString s.stack c
  | .beginString => stepBeginString s.stack c
  | .endValue => stepEndValue s.stack s.result c
  | .endTop => if isSpace c then some s else none
  | .inString acc =>
    if c = ch '"' then deliver (.string acc) s.stack
    else if c = ch '\\' then some ⟨.inStringEsc (acc ++ [c]), s.stack, none⟩
    else if c < 0x20 then none
    else some ⟨.inString (acc ++ [c]), s.stack, none⟩
  | .inStringEsc acc =>
    if c = ch 'b' || c = ch 'f' || c = ch 'n' || c = ch 'r' || c = ch 't' || c = ch '\\' ||
        c = ch '/' || c = ch '"' then
      some ⟨.inString (acc ++ [c]), s.stack, none⟩
    else if c = ch 'u' then some ⟨.inStringEscU (acc ++ [c]) 3, s.stack, none⟩
    else none
  | .inStringEscU acc more =>
    if isHex c then
      match more with
      | 0 => some ⟨.inString (acc ++ [c]), s.stack, none⟩
      | m + 1 => some ⟨.inStringEscU (acc ++ [c]) m, s.stack, none⟩
    else none
  | .num st acc => stepNum s.stack st acc c
  | .lit rest v =>
    match rest with
    | [] => none
    | x :: more =>
      if c = x then
        (if more.isEmpty then deliver v s.stack else some ⟨.lit more v, s.stack, none⟩)
      else none

/-- Run the scanner over the bytes. -/
def scan : Scanner → List Nat → Option Scanner
  | s, [] => some s
  | s, c :: cs =>
    match step s c with
    | some s1 => scan s1 cs
    | none => none

/-- The value a text denotes, or `none` on a syntax error. At the end of the
input the scanner is fed one space, which ends a top-level number. -/
def parseJSON (data : List Nat) : Option JValue :=
  match scan ⟨.beginValue, [], none⟩ (data ++ [ch ' ']) with
  | some ⟨.endTop, [], some v⟩ => some v
  | _ => none

/-! ## encoding/json: strings -/

/-- Value of a hexadecimal digit. -/
def hexVal (c : Nat) : Nat :=
  if isDigit c then c - ch '0'
  else if ch 'a' ≤ c ∧ c ≤ ch 'f' then c - ch 'a' + 10
  else c - ch 'A' + 10

/-- Where `unquote` stands with respect to an escape. -/
inductive Esc where
  | outside
  | backslash
  | hex (more : Nat) (acc : Nat)

/-- What a pending high surrogate leaves behind when no low surrogate follows:
U+FFFD. -/
def flush (high : Option Nat) : List Nat :=
  if high.isSome then encodeRune 0xFFFD else []

/-- The byte a one-letter escape stands for (`unquote` also knows the single
quote, which the scanner does not let through); the scanner admits no other
byte after a backslash, and any other byte is dropped. -/
def escByte (c : Nat) : List Nat :=
  if c = ch 'b' then [8]
  else if c = ch 'f' then [12]
  else if c = ch 'n' then [10]
  else if c = ch 'r' then [13]
  else if c = ch 't' then [9]
  else if c = ch '\\' ∨ c = ch '/' ∨ c = ch '"' ∨ c = 39 then [c]
  else []

/-- Resolve the escapes of a raw string, byte by byte (`unquote`). Outside an
escape a byte below 0x80 is copied and any other byte is decoded and encoded
again, which turns bytes that are not UTF-8 into U+FFFD (`skip` counts the
bytes of a code point already written). `\uXXXX` writes the code point; `high`
is a pending high surrogate, which combines with a low surrogate escape that
follows at once and becomes U+FFFD otherwise, as does a low surrogate alone. -/
def unquoteFrom : Esc → Option Nat → Nat → List Nat → List Nat
  | _, high, _, [] => flush high
  | .outside, high, skip + 1, _ :: rest => unquoteFrom .outside high skip rest
  | .outside, high, 0, b :: rest =>
    if b = ch '\\' then unquoteFrom .backslash high 0 rest
    else if b < 0x80 then flush high ++ b :: unquoteFrom .outside none 0 rest
    else
      flush high ++ encodeRune (decodeRune (b :: rest)).1 ++
        unquoteFrom .outside none ((decodeRune (b :: rest)).2 - 1) rest
  | .backslash, high, _, b :: rest =>
    if b = ch 'u' then unquoteFrom (.hex 3 0) high 0 rest
    else flush high ++ escByte b ++ unquoteFrom .outside none 0 rest
  | .hex (m + 1) acc, high, _, b :: rest =>
    unquoteFrom (.hex m (acc * 16 + hexVal b)) high 0 rest
  | .hex 0 acc, high, _, b :: rest =>
    if 0xD800 ≤ acc * 16 + hexVal b ∧ acc * 16 + hexVal b < 0xDC00 then
      flush high ++ unquoteFrom .outside (some (acc * 16 + hexVal b)) 0 rest
    else if 0xDC00 ≤ acc * 16 + hexVal b ∧ acc * 16 + hexVal b < 0xE000 then
      match high with
      | some hi =>
        encodeRune ((hi - 0xD800) * 0x400 + (acc * 16 + hexVal b - 0xDC00) + 0x10000) ++
          unquoteFrom .outside none 0 rest
      | none => encodeRune 0xFFFD ++ unquoteFrom .outside none 0 rest
    else flush high ++ encodeRune (acc * 16 + hexVal b) ++ unquoteFrom .outside none 0 rest

/-- The bytes a raw JSON string stands for; always valid UTF-8. -/
def unquote (raw : List Nat) : GoString :=
  unquoteFrom .outside none 0 raw

/-- ASCII letter to lower case. -/
def lowerASCII (c : Nat) : Nat :=
  if ch 'A' ≤ c ∧ c ≤ ch 'Z' then c + 32 else c

/-- Does an object key (escapes resolved) select the struct field with JSON
name `name`? The decoder takes the exact name, else a match ignoring case. The
names used here are lower-case ASCII without `k` or `s`, so ignoring case is
ASCII lower-casing of the key. -/
def keyMatches (name : String) (key : List Nat) : Bool :=
  key = bytes name || key.map lowerASCII = bytes name

/-! ## time -/

/-- A `time.Time` as an instant: nanoseconds since the Unix epoch. -/
abbrev Time := Int

/-- The zero `time.Time`: January 1, year 1, 00:00:00 UTC. -/
def zeroTime : Time := -62135596800 * 1000000000

/-- The smallest `Duration` (an `int64`). -/
def minDuration : Int := -(2 ^ 63)

/-- The largest `Duration` (an `int64`). -/
def maxDuration : Int := 2 ^ 63 - 1

/-- `t.Sub(u)` for times `t`, `u`: the duration `t - u`, or the minimum /
maximum duration when `t - u` does not fit a `Duration`. -/
def Time.Sub (t u : Int) : Int :=
  if t - u < minDuration then minDuration
  else if maxDuration < t - u then maxDuration
  else t - u

/-- Leap years of the Gregorian calendar. -/
def isLeap (year : Nat) : Bool :=
  year % 4 = 0 && (year % 100 != 0 || year % 400 = 0)

/-- Number of days of a month (1 to 12) in a year. -/
def daysIn (month year : Nat) : Nat :=
  if month = 2 then (if isLeap year then 29 else 28)
  else if month = 4 || month = 6 || month = 9 || month = 11 then 30
  else 31

/-- Days from 0000-01-01 to the first day of `year` (proleptic Gregorian). -/
def daysBeforeYear (year : Nat) : Nat :=
  365 * year + ((year + 3) / 4 - (year + 99) / 100 + (year + 399) / 400)

/-- Days from the first day of `year` to the first day of `month`. -/
def daysBeforeMonth (month year : Nat) : Nat :=
  ((List.range (month - 1)).map fun i => daysIn (i + 1) year).sum

/-- `time.Date(year, month, day, hour, min, sec, nsec, UTC)` as an instant, for a
date and time of day within their ranges; 0000-01-01 is 719528 days before the
Unix epoch. -/
def Date (year month day hour min sec nsec : Nat) : Time :=
  ((((daysBeforeYear year + daysBeforeMonth month year + (day - 1) : Nat) : Int) - 719528) * 86400
    + ((hour * 3600 + min * 60 + sec : Nat) : Int)) * 1000000000 + (nsec : Int)

/-- The number written by the given digits. -/
def digitsValue (cs : List Nat) : Nat :=
  cs.foldl (fun x c => x * 10 + (c - ch '0')) 0

/-- Decimal number made of exactly the given bytes, within `lo..hi` (the
`parseUint` of the RFC 3339 fast path). -/
def parseUint (cs : List Nat) (lo hi : Nat) : Option Nat :=
  if cs.all isDigit then
    (if lo ≤ digitsValue cs ∧ digitsValue cs ≤ hi then some (digitsValue cs) else none)
  else none

/-- Nanoseconds of a fraction given by its digits: the first nine count
(`parseNanoseconds`). -/
def parseNanoseconds (digits : List Nat) : Nat :=
  digitsValue (digits.take 9) * 10 ^ (9 - (digits.take 9).length)

/-- Zone of the fast path: `Z`, or `±hh:mm` with hours to 23 and minutes to 59;
the result is seconds east of UTC. -/
def parseZone (cs : List Nat) : Option Int :=
  if cs = [ch 'Z'] then some 0
  else
    match cs with
    | [sg, h1, h2, colon, m1, m2] =>
      match parseUint [h1, h2] 0 23, parseUint [m1, m2] 0 59 with
      | some hr, some mm =>
        if colon = ch ':' then
          if sg = ch '+' then some (((hr * 60 + mm) * 60 : Nat) : Int)
          else if sg = ch '-' then some (-(((hr * 60 + mm) * 60 : Nat) : Int))
          else none
        else none
      | _, _ => none
    | _ => none

/-- A fraction of a second at the head of the text: the digits after the
separator and the text after them; no digits when there is no fraction. -/
def splitFraction (comma : Bool) (cs : List Nat) : List Nat × List Nat :=
  match cs with
  | sep :: dg :: more =>
    if (sep = ch '.' ∨ (comma = true ∧ sep = ch ',')) ∧ isDigit dg = true then
      (dg :: more.takeWhile isDigit, more.dropWhile isDigit)
    else ([], cs)
  | _ => ([], cs)

/-- The fast path `parseRFC3339`: the fixed layout
`2006-01-02T15:04:05[.frac](Z|±hh:mm)` with every field in range. -/
def parseRFC3339 (cs : List Nat) : Option Time :=
  match cs with
  | y1 :: y2 :: y3 :: y4 :: s1 :: mo1 :: mo2 :: s2 :: d1 :: d2 :: s3 :: h1 :: h2 :: s4 ::
      mi1 :: mi2 :: s5 :: se1 :: se2 :: rest =>
    match parseUint [y1, y2, y3, y4] 0 9999, parseUint [mo1, mo2] 1 12 with
    | some year, some month =>
      match parseUint [d1, d2] 1 (daysIn month year), parseUint [h1, h2] 0 23,
        parseUint [mi1, mi2] 0 59, parseUint [se1, se2] 0 59 with
      | some day, some hour, some min, some sec =>
        if s1 = ch '-' ∧ s2 = ch '-' ∧ s3 = ch 'T' ∧ s4 = ch ':' ∧ s5 = ch ':' then
          match parseZone (splitFraction false rest).2 with
          | some offset =>
            some (Date year month day hour min sec
              (parseNanoseconds (splitFraction false rest).1) - offset * 1000000000)
          | none => none
        else none
      | _, _, _, _ => none
    | _, _ => none
  | _ => none

/-- The `getnum` of `time.Parse`: one or two digits at the head (`fixed` asks
for two); the number and the text after it. -/
def getnum (s : List Nat) (fixed : Bool) : Option (Nat × List Nat) :=
  match s with
  | [] => none
  | a :: rest =>
    if isDigit a then
      match rest with
      | [] => if fixed then none else some (a - ch '0', rest)
      | b :: rest2 =>
        if isDigit b then some ((a - ch '0') * 10 + (b - ch '0'), rest2)
        else if fixed then none
        else some (a - ch '0', rest)
    else none

/-- The literal byte `c` at the head of the text (`skip` for a one-byte prefix
of the layout); the text after it. -/
def skipByte (c : Nat) (value : List Nat) : Option (List Nat) :=
  match value with
  | [] => none
  | b :: rest => if b = c then some rest else none

/-- Zone of the layout `Z07:00` in `time.Parse`: `Z`, or `±hh:mm` with hours to
24 and minutes to 60 (the library tests with `>`); seconds east of UTC and the
text that follows. -/
def parseLayoutZone (value : List Nat) : Option (Int × List Nat) :=
  match value with
  | [] => none
  | z :: afterZ =>
    if z = ch 'Z' then some (0, afterZ)
    else
      match value with
      | sg :: h1 :: h2 :: colon :: m1 :: m2 :: rest =>
        if colon = ch ':' then
          match getnum [h1, h2] true, getnum [m1, m2] true with
          | some (hr, _), some (mm, _) =>
            if hr ≤ 24 ∧ mm ≤ 60 then
              if sg = ch '+' then some ((((hr * 60 + mm) * 60 : Nat) : Int), rest)
              else if sg = ch '-' then some (-(((hr * 60 + mm) * 60 : Nat) : Int), rest)
              else none
            else none
          | _, _ => none
        else none
      | _ => none

/-- The call `time.Parse(time.RFC3339, value)`, layout `2006-01-02T15:04:05Z07:00`:
a four-digit year, two-digit month (1 to 12), two-digit day, one- or two-digit
hour (below 24), two-digit minute and second (below 60), an optional fraction
after `.` or `,`, the zone, and nothing after it; the day must exist in its
month. -/
def parseLayout (value : List Nat) : Option Time :=
  match value with
  | y1 :: y2 :: y3 :: y4 :: v0 =>
    if [y1, y2, y3, y4].all isDigit then
      match skipByte (ch '-') v0 with
      | none => none
      | some v1 =>
      match getnum v1 true with
      | none => none
      | some (month, v2) =>
      match skipByte (ch '-') v2 with
      | none => none
      | some v3 =>
      match getnum v3 true with
      | none => none
      | some (day, v4) =>
      match skipByte (ch 'T') v4 with
      | none => none
      | some v5 =>
      match getnum v5 false with
      | none => none
      | some (hour, v6) =>
      match skipByte (ch ':') v6 with
      | none => none
      | some v7 =>
      match getnum v7 true with
      | none => none
      | some (min, v8) =>
      match skipByte (ch ':') v8 with
      | none => none
      | some v9 =>
      match getnum v9 true with
      | none => none
      | some (sec, v10) =>
      match parseLayoutZone (splitFraction true v10).2 with
      | none => none
      | some (offset, v11) =>
        if 1 ≤ month ∧ month ≤ 12 ∧ hour < 24 ∧ min < 60 ∧ sec < 60 ∧ v11 = [] ∧
            1 ≤ day ∧ day ≤ daysIn month (digitsValue [y1, y2, y3, y4]) then
          some (Date (digitsValue [y1, y2, y3, y4]) month day hour min sec
            (parseNanoseconds (splitFraction true v10).1) - offset * 1000000000)
        else none
    else none
  | _ => none

/-- The parse of `Time.UnmarshalJSON` (`parseStrictRFC3339`): the fast path, and
when it fails the general `time.Parse` with the RFC 3339 layout, whose result is
returned as it is. -/
def parseStrictRFC3339 (b : List Nat) : Option Time :=
  match parseRFC3339 b with
  | some t => some t
  | none => parseLayout b

/-! ## encoding/json: decoding into `InstanceAction` -/

/-- The record decoded from `spot/instance-action` (JSON names `action`, `time`). -/
structure InstanceAction where
  Action : GoString
  Time : Time
deriving DecidableEq, Repr

/-- The errors `json.Unmarshal` can return here. -/
inductive JsonError where
  | syntaxError
  | unmarshalTypeError (value : String)
  | timeError
deriving DecidableEq, Repr

-- Results of decoding and of building a metric can be compared.
deriving instance DecidableEq for Except

/-- The JSON kind named in an `UnmarshalTypeError`. -/
def JValue.kind : JValue → String
  | .null => "null"
  | .bool _ => "bool"
  | .number _ => "number"
  | .string _ => "string"
  | .array _ => "array"
  | .object _ => "object"

/-- Decoder state while an object is read: the struct filled so far and the
first type error saved (decoding goes on after a type error). -/
structure Decoding where
  ia : InstanceAction
  saved : Option JsonError
deriving DecidableEq, Repr

/-- Keep the first type error (`saveError`). -/
def Decoding.saveError (d : Decoding) (e : JsonError) : Decoding :=
  match d.saved with
  | none => { d with saved := some e }
  | some _ => d

/-- Store one object member. `Action` is a Go string: `null` leaves it alone, a
JSON string sets it, anything else is a type error. `Time` decodes itself
(`Time.UnmarshalJSON`) from the raw bytes: `null` leaves it alone, a string that
parses as a timestamp sets it, anything else is an error that stops decoding.
Members with other keys are skipped. -/
def storeMember (d : Decoding) (m : List Nat × JValue) : Except JsonError Decoding :=
  if keyMatches "action" (unquote m.1) then
    match m.2 with
    | .null => .ok d
    | .string raw => .ok { d with ia := { d.ia with Action := unquote raw } }
    | v => .ok (d.saveError (.unmarshalTypeError v.kind))
  else if keyMatches "time" (unquote m.1) then
    match m.2 with
    | .null => .ok d
    | .string raw =>
      match parseStrictRFC3339 raw with
      | some t => .ok { d with ia := { d.ia with Time := t } }
      | none => .error .timeError
    | _ => .error .timeError
  else .ok d

/-- Store the members of an object in order. -/
def storeMembers : Decoding → List (List Nat × JValue) → Except JsonError Decoding
  | d, [] => .ok d
  | d, m :: ms =>
    match storeMember d m with
    | .ok d1 => storeMembers d1 ms
    | .error e => .error e

/-- Decode a parsed value into a zero `InstanceAction{}`: `null` changes
nothing, an object stores its members, any other kind is a type error. -/
def decodeValue : JValue → Except JsonError InstanceAction
  | .null => .ok ⟨[], zeroTime⟩
  | .object ms =>
    match storeMembers ⟨⟨[], zeroTime⟩, none⟩ ms with
    | .ok ⟨ia, none⟩ => .ok ia
    | .ok ⟨_, some e⟩ => .error e
    | .error e => .error e
  | v => .error (.unmarshalTypeError v.kind)

/-- `json.Unmarshal([]byte(data), &ia)` for `ia = InstanceAction{}`: the decoded
struct when the error is nil, the error otherwise. -/
def Unmarshal (data : GoString) : Except JsonError InstanceAction :=
  match parseJSON data with
  | none => .error .syntaxError
  | some v => decodeValue v

/-! ## net/http and io/ioutil -/

/-- A response body as a reader: the bytes the server sends, and whether
reading breaks off (after how many bytes). -/
structure ReadCloser where
  content : GoString
  failAfter : Option Nat
deriving DecidableEq, Repr

/-- `ioutil.ReadAll(body)`: the bytes read and the read error, if any. On an
error the bytes read so far are returned with it. -/
def ReadAll (b : ReadCloser) : GoString × Option String :=
  match b.failAfter with
  | none => (b.content, none)
  | some k => (b.content.take k, some "unexpected EOF")

/-- An `http.Response`, as far as `getMetadata` looks at it. -/
structure Response where
  StatusCode : Int
  Body : ReadCloser
deriving DecidableEq, Repr

/-- Outcome of `client.Get(url)`: an error, or a response. -/
inductive GetResult where
  | failure (err : String)
  | response (r : Response)
deriving DecidableEq, Repr

/-- The HTTP client with its 1 second timeout, as the outcome for each URL. -/
abbrev Client := GoString → GetResult

/-! ## logrus -/

/-- Log levels used by the collector. -/
inductive Level where
  | debug | info | error
deriving DecidableEq, Repr

/-- A log call: level and format string (arguments are not recorded). -/
structure LogEntry where
  level : Level
  format : String
deriving DecidableEq, Repr

/-! ## The collector -/

/-- The collector: the endpoint and the two descriptors. -/
structure terminationCollector where
  metadataEndpoint : GoString
  terminationIndicator : Desc
  terminationTime : Desc
deriving DecidableEq, Repr

/-- `NewTerminationCollector(me)`: the result of `append(labels, ...)` goes to
the indicator descriptor and is not assigned back to `labels`. -/
def NewTerminationCollector (g : Globals) (me : GoString) : terminationCollector × Globals :=
  let r := goAppend g.heap g.labels "instance_action"
  ({ metadataEndpoint := me
     terminationIndicator :=
       NewDesc "aws_instance_termination_imminent" "Instance is about to be terminated" r.1
     terminationTime :=
       NewDesc "aws_instance_termination_in" "Instance will be terminated in" g.labels },
   { g with heap := r.2 })

/-- Result of `getMetadata`: the two return values and the log calls made. -/
structure Fetched where
  value : GoString
  err : Option String
  log : List LogEntry
deriving DecidableEq, Repr

/-- `getMetadata(path)`: one GET of `endpoint + path`. The error of
`ioutil.ReadAll` is dropped, as in the source (`value, _ := ...`), and
`string(value)` keeps the bytes as they are. -/
def getMetadata (c : terminationCollector) (client : Client) (path : GoString) : Fetched :=
  let url := c.metadataEndpoint ++ path
  match client url with
  | .failure err => ⟨[], some err, [⟨.error, "error request metadata from %s: %s"⟩]⟩
  | .response idResp =>
    if idResp.StatusCode = 404 then
      ⟨[], none, [⟨.error, "endpoint %s not found"⟩]⟩
    else
      ⟨(ReadAll idResp.Body).1, none, []⟩

/-- What one call of `Collect` did: the metrics sent on `ch` in order, the log
calls, and the panic of `MustNewConstMetric` it ended in, if any. -/
structure Run where
  sent : List Metric
  log : List LogEntry
  panic : Option PanicReason
deriving DecidableEq, Repr

/-- `Collect(ch)` with the HTTP client's outcomes and the reading of
`time.Now()` as inputs. `delta.Seconds() > 0` holds exactly when the duration
is positive, so the test is made on the duration. -/
def Collect (c : terminationCollector) (client : Client) (now : Time) : Run :=
  let az := getMetadata c client (bytes "placement/availability-zone")
  let hostname := getMetadata c client (bytes "hostname")
  let instanceId := getMetadata c client (bytes "instance-id")
  let instanceType := getMetadata c client (bytes "instance-type")
  let fetched := getMetadata c client (bytes "spot/instance-action")
  let log0 := [(⟨.info, "Fetching termination data from metadata-service"⟩ : LogEntry)] ++
    az.log ++ hostname.log ++ instanceId.log ++ instanceType.log ++ fetched.log
  match fetched.err with
  | some _ => ⟨[], log0 ++ [⟨.error, "Failed to fetch data from metadata service: %s"⟩], none⟩
  | none =>
    let action := fetched.value
    if action = [] then
      let log1 := log0 ++ [⟨.debug, "instance-action endpoint not found"⟩]
      match MustNewConstMetric c.terminationIndicator (.lit 0)
          [az.value, hostname.value, instanceId.value, instanceType.value, action] with
      | .error p => ⟨[], log1, some p⟩
      | .ok m => ⟨[m], log1, none⟩
    else
      match Unmarshal action with
      | .error _ =>
        let log1 := log0 ++ [⟨.error, "Couldn't parse instance-action metadata: %s"⟩]
        match MustNewConstMetric c.terminationIndicator (.lit 0)
            [az.value, hostname.value, instanceId.value, instanceType.value, []] with
        | .error p => ⟨[], log1, some p⟩
        | .ok m => ⟨[m], log1, none⟩
      | .ok ia =>
        let log1 := log0 ++ [⟨.info, "instance-action endpoint available, termination time: %v"⟩]
        match MustNewConstMetric c.terminationIndicator (.lit 1)
            [az.value, hostname.value, instanceId.value, instanceType.value, ia.Action] with
        | .error p => ⟨[], log1, some p⟩
        | .ok m1 =>
          let delta := Time.Sub ia.Time now
          if 0 < delta then
            match MustNewConstMetric c.terminationTime (.seconds delta)
                [az.value, hostname.value, instanceId.value, instanceType.value] with
            | .error p => ⟨[m1], log1, some p⟩
            | .ok m2 => ⟨[m1, m2], log1, none⟩
          else ⟨[m1], log1, none⟩

/-- `Describe(ch)`: the descriptors sent on `ch`, in order. -/
def Describe (c : terminationCollector) : List Desc :=
  [c.terminationIndicator, c.terminationTime]

/-- A call made on the package. -/
inductive Call where
  | construct (me : GoString)
  | describe
  | collect

/-- Package state after a call. Only construction touches it: `Describe` and
`Collect` assign no package-level variable and write into no slice. -/
def Globals.step (g : Globals) : Call → Globals
  | .construct me => (NewTerminationCollector g me).2
  | .describe => g
  | .collect => g

/-- Package state after a sequence of calls. -/
def Globals.after (g : Globals) (calls : List Call) : Globals :=
  calls.foldl Globals.step g

/-- The four label names of the package-level `labels`. -/
def labelNames4 : List String :=
  ["availability_zone", "hostname", "instance_id", "instance_type"]

/-- The metadata paths of the four label fetches, in the order of `Collect`. -/
def labelPaths : List GoString :=
  [bytes "placement/availability-zone", bytes "hostname", bytes "instance-id",
    bytes "instance-type"]

/-- Name and label names of a descriptor, read in a given heap. -/
def Desc.view (h : Heap) (d : Desc) : String × List String :=
  (d.fqName, d.labelNames h)

/-- The four label values `Collect` fetches, in the order it passes them on. -/
def fetchedLabels (c : terminationCollector) (client : Client) : List GoString :=
  labelPaths.map fun p => (getMetadata c client p).value

/-- A member of the action object that the struct rejects: its key selects
`Action` and its value is neither `null` nor a string, or its key selects `Time`
and its value is neither `null` nor a string that parses as a timestamp. -/
def memberMalformed (m : List Nat × JValue) : Bool :=
  if keyMatches "action" (unquote m.1) then
    match m.2 with
    | .null => false
    | .string _ => false
    | _ => true
  else if keyMatches "time" (unquote m.1) then
    match m.2 with
    | .null => false
    | .string raw => (parseStrictRFC3339 raw).isNone
    | _ => true
  else false

/-- Decoding did not end with a nil error. -/
def DecodeFailed : Except JsonError Decoding → Prop
  | .error _ => True
  | .ok d => d.saved.isSome = true

/-! ## Example inputs -/

/-- A metadata service at `http://m/`, given by the outcome of each of the
five requests `Collect` makes. -/
def serviceAt (az hostname instanceId instanceType action : GetResult) : Client := fun url =>
  if url = bytes "http://m/placement/availability-zone" then az
  else if url = bytes "http://m/hostname" then hostname
  else if url = bytes "http://m/instance-id" then instanceId
  else if url = bytes "http://m/instance-type" then instanceType
  else if url = bytes "http://m/spot/instance-action" then action
  else .failure "no such host"

/-- A response with status 200 whose body reads to the end. -/
def ok200 (body : GoString) : GetResult :=
  .response ⟨200, ⟨body, none⟩⟩

/-- A response with status 404. -/
def notFound : GetResult :=
  .response ⟨404, ⟨bytes "Not Found", none⟩⟩

/-- A service whose four label fetches succeed. -/
def labelledService (action : GetResult) : Client :=
  serviceAt (ok200 (bytes "us-east-1a")) (ok200 (bytes "ip-10-0-0-1")) (ok200 (bytes "i-0abc"))
    (ok200 (bytes "m5.large")) action

/-- A service whose hostname is the single byte 0xFF, which is not UTF-8. -/
def badHostnameService (action : GetResult) : Client :=
  serviceAt (ok200 (bytes "us-east-1a")) (ok200 [0xFF]) (ok200 (bytes "i-0abc"))
    (ok200 (bytes "m5.large")) action

/-- The label values of `labelledService`. -/
def exampleLabels : List GoString :=
  [bytes "us-east-1a", bytes "ip-10-0-0-1", bytes "i-0abc", bytes "m5.large"]

/-- The first collector constructed after package initialisation. -/
def exampleCollector : terminationCollector :=
  (NewTerminationCollector initGlobals (bytes "http://m/")).1

/-- The notice `{"action": "terminate", "time": "2026-11-04T12:02:00Z"}`. -/
def noticeBody : GoString :=
  bytes "\x7b\"action\": \"terminate\", \"time\": \"2026-11-04T12:02:00Z\"\x7d"

/-- The notice `{"action": "terminate", "time": "9999-12-31T23:59:59Z"}`. -/
def farFutureBody : GoString :=
  bytes "\x7b\"action\": \"terminate\", \"time\": \"9999-12-31T23:59:59Z\"\x7d"

/-- The payload `{"action": "terminate", "time": 5}`. -/
def badTimeBody : GoString :=
  bytes "\x7b\"action\": \"terminate\", \"time\": 5\x7d"

/-- The payload `{"action": "terminate"}`. -/
def actionOnlyBody : GoString :=
  bytes "\x7b\"action\": \"terminate\"\x7d"

/-- The notice `{"action": "terminate", "time": "2026-11-05T9:02:00Z"}`, its hour
written with one digit. -/
def shortHourBody : GoString :=
  bytes "\x7b\"action\": \"terminate\", \"time\": \"2026-11-05T9:02:00Z\"\x7d"

/-- The payload `{"action": "stop"}`. -/
def stopBody : GoString :=
  bytes "\x7b\"action\": \"stop\"\x7d"

/-- The payload `{}`. -/
def emptyObjectBody : GoString :=
  bytes "\x7b\x7d"

/-- A body that is not JSON. -/
def htmlBody : GoString :=
  bytes "<html>busy</html>"

/-- 2026-11-04T12:00:00Z. -/
def exampleNow : Time := 1793793600 * 1000000000

/-! ## Package state: what every reachable state looks like -/

/-- Shape of every reachable package state: `labels` is the full slice over the
first array of the heap, which holds the four names. -/
def Globals.WellFormed (g : Globals) : Prop :=
  ∃ tail, g = ⟨labelNames4 :: tail, ⟨0, 4, 4⟩⟩

theorem wellFormed_init : initGlobals.WellFormed :=
  ⟨[], rfl⟩

/-- Constructing a collector in a well-formed state: `append` finds no spare
capacity, copies to a fresh array at the end of the heap, and `labels` stays. -/
theorem newTerminationCollector_eq (tail : Heap) (me : GoString) :
    NewTerminationCollector ⟨labelNames4 :: tail, ⟨0, 4, 4⟩⟩ me =
      (⟨me,
        ⟨"aws_instance_termination_imminent", "Instance is about to be terminated",
          ⟨tail.length + 1, 5, 8⟩⟩,
        ⟨"aws_instance_termination_in", "Instance will be terminated in", ⟨0, 4, 4⟩⟩⟩,
       ⟨labelNames4 :: (tail ++ [labelNames4 ++ ["instance_action", "", "", ""]]), ⟨0, 4, 4⟩⟩) := by
  simp [NewTerminationCollector, goAppend, Slice.read, growCap, NewDesc, labelNames4,
    List.replicate]

theorem wellFormed_step (g : Globals) (call : Call) (hg : g.WellFormed) :
    (g.step call).WellFormed ∧ ∃ extra, (g.step call).heap = g.heap ++ extra := by
  obtain ⟨tail, rfl⟩ := hg
  cases call with
  | construct me =>
    simp only [Globals.step, newTerminationCollector_eq]
    exact ⟨⟨_, rfl⟩, ⟨[labelNames4 ++ ["instance_action", "", "", ""]], by simp⟩⟩
  | describe => exact ⟨⟨tail, rfl⟩, ⟨[], by simp [Globals.step]⟩⟩
  | collect => exact ⟨⟨tail, rfl⟩, ⟨[], by simp [Globals.step]⟩⟩

theorem wellFormed_after (calls : List Call) (g : Globals) (hg : g.WellFormed) :
    (g.after calls).WellFormed ∧ ∃ extra, (g.after calls).heap = g.heap ++ extra := by
  induction calls generalizing g with
  | nil => exact ⟨hg, ⟨[], by simp [Globals.after]⟩⟩
  | cons call rest ih =>
    obtain ⟨h1, e1, he1⟩ := wellFormed_step g call hg
    obtain ⟨h2, e2, he2⟩ := ih (g.step call) h1
    refine ⟨h2, ⟨e1 ++ e2, ?_⟩⟩
    have : g.after (call :: rest) = (g.step call).after rest := rfl
    rw [this, he2, he1, List.append_assoc]

/-- A slice that lies inside the heap reads the same after the heap has grown. -/
theorem read_append (h extra : Heap) (s : Slice) (hs : s.ptr < h.length) :
    s.read (h ++ extra) = s.read h := by
  simp [Slice.read, List.getElem?_append_left hs]

/-- Descriptors of a collector built in any reachable state carry 5 and 4
label names. -/
theorem collector_lens (calls : List Call) (me : GoString) :
    (NewTerminationCollector (initGlobals.after calls) me).1.terminationIndicator.variableLabels.len = 5 ∧
    (NewTerminationCollector (initGlobals.after calls) me).1.terminationTime.variableLabels.len = 4 ∧
    (NewTerminationCollector (initGlobals.after calls) me).1.metadataEndpoint = me := by
  obtain ⟨⟨tail, ht⟩, _⟩ := wellFormed_after calls initGlobals wellFormed_init
  rw [ht, newTerminationCollector_eq]
  exact ⟨rfl, rfl, rfl⟩

/-- Label names of the descriptors of a collector built in any reachable state,
read in the state the construction leaves; the two descriptors differ. -/
theorem collector_labelNames (calls : List Call) (me : GoString) :
    (NewTerminationCollector (initGlobals.after calls) me).1.terminationIndicator.labelNames
        (NewTerminationCollector (initGlobals.after calls) me).2.heap =
      ["availability_zone", "hostname", "instance_id", "instance_type", "instance_action"] ∧
    (NewTerminationCollector (initGlobals.after calls) me).1.terminationTime.labelNames
        (NewTerminationCollector (initGlobals.after calls) me).2.heap =
      ["availability_zone", "hostname", "instance_id", "instance_type"] ∧
    (NewTerminationCollector (initGlobals.after calls) me).1.terminationIndicator ≠
      (NewTerminationCollector (initGlobals.after calls) me).1.terminationTime := by
  obtain ⟨⟨tail, ht⟩, _⟩ := wellFormed_after calls initGlobals wellFormed_init
  rw [ht, newTerminationCollector_eq]
  refine ⟨?_, ?_, ?_⟩
  · simp [Desc.labelNames, Slice.read, labelNames4]
  · simp [Desc.labelNames, Slice.read, labelNames4]
  · simp

/-! ## UTF-8: what `unquote` writes is always valid -/

theorem following_two (b : Nat) (h : 0xC2 ≤ b ∧ b ≤ 0xDF) :
    following b = some [(0x80, 0xBF)] := by
  unfold following
  split_ifs <;> first | rfl | omega

theorem following_three (b : Nat) (h : 0xE0 ≤ b ∧ b ≤ 0xEF) :
    following b = some [(if b = 0xE0 then 0xA0 else 0x80, if b = 0xED then 0x9F else 0xBF),
      (0x80, 0xBF)] := by
  unfold following
  split_ifs <;> first | rfl | omega

theorem following_four (b : Nat) (h : 0xF0 ≤ b ∧ b ≤ 0xF4) :
    following b = some [(if b = 0xF0 then 0x90 else 0x80, if b = 0xF4 then 0x8F else 0xBF),
      (0x80, 0xBF), (0x80, 0xBF)] := by
  unfold following
  split_ifs <;> first | rfl | omega

/-- Valid bytes followed by more bytes: validity is that of what follows. -/
theorem validFrom_append (xs ys : List Nat) (p : List (Nat × Nat))
    (h : validFrom p xs = true) : validFrom p (xs ++ ys) = validFrom [] ys := by
  induction xs generalizing p with
  | nil =>
    cases p with
    | nil => rfl
    | cons r m => simp [validFrom] at h
  | cons b rest ih =>
    cases p with
    | nil =>
      simp only [List.cons_append, validFrom] at h ⊢
      cases hf : following b with
      | none => simp [hf] at h
      | some ranges =>
        simp only [hf] at h ⊢
        exact ih ranges h
    | cons r m =>
      simp only [List.cons_append, validFrom] at h ⊢
      by_cases hr : r.1 ≤ b ∧ b ≤ r.2
      · simp only [hr, and_self, if_true] at h ⊢
        exact ih m h
      · simp [hr] at h

theorem valid_append (xs ys : List Nat) (hx : ValidString xs = true)
    (hy : ValidString ys = true) : ValidString (xs ++ ys) = true := by
  unfold ValidString at *
  rw [validFrom_append xs ys [] hx]
  exact hy

/-- Every code point is written as valid UTF-8. -/
theorem valid_encodeRune (r : Nat) : ValidString (encodeRune r) = true := by
  unfold ValidString encodeRune
  split_ifs with h1 h2 h3 h4
  · simp [validFrom, following, h1]
  · have a3 : 0x80 ≤ 0x80 + r % 64 ∧ 0x80 + r % 64 ≤ 0xBF := by omega
    simp only [validFrom, following_two (0xC0 + r / 64) (by omega)]
    simp [a3]
  · decide
  · simp only [validFrom, following_three (0xE0 + r / 4096) (by omega)]
    have a1 : (if 0xE0 + r / 4096 = 0xE0 then 0xA0 else 0x80) ≤ 0x80 + r / 64 % 64 ∧
        0x80 + r / 64 % 64 ≤ (if 0xE0 + r / 4096 = 0xED then 0x9F else 0xBF) := by
      split_ifs <;> omega
    have a2 : 0x80 ≤ 0x80 + r % 64 ∧ 0x80 + r % 64 ≤ 0xBF := by omega
    simp only [a1, a2, and_self, if_true, validFrom]
  · simp only [validFrom, following_four (0xF0 + r / 262144) (by omega)]
    have a1 : (if 0xF0 + r / 262144 = 0xF0 then 0x90 else 0x80) ≤ 0x80 + r / 4096 % 64 ∧
        0x80 + r / 4096 % 64 ≤ (if 0xF0 + r / 262144 = 0xF4 then 0x8F else 0xBF) := by
      split_ifs <;> omega
    have a2 : 0x80 ≤ 0x80 + r / 64 % 64 ∧ 0x80 + r / 64 % 64 ≤ 0xBF := by omega
    have a3 : 0x80 ≤ 0x80 + r % 64 ∧ 0x80 + r % 64 ≤ 0xBF := by omega
    simp only [a1, a2, a3, and_self, if_true, validFrom]

theorem valid_cons_ascii (b : Nat) (ys : List Nat) (hb : b < 0x80)
    (hy : ValidString ys = true) : ValidString (b :: ys) = true := by
  unfold ValidString at *
  simp only [validFrom, following, hb, if_true]
  exact hy

theorem valid_flush (high : Option Nat) : ValidString (flush high) = true := by
  unfold flush
  split_ifs
  · exact valid_encodeRune _
  · rfl

theorem valid_escByte (c : Nat) : ValidString (escByte c) = true := by
  unfold escByte
  split_ifs with h1 h2 h3 h4 h5 h6
  · decide
  · decide
  · decide
  · decide
  · decide
  · rcases h6 with rfl | rfl | rfl | rfl <;> decide
  · rfl

theorem valid_unquoteFrom (bs : List Nat) :
    ∀ (st : Esc) (high : Option Nat) (skip : Nat),
      ValidString (unquoteFrom st high skip bs) = true := by
  induction bs with
  | nil =>
    intro st high skip
    simp only [unquoteFrom]
    exact valid_flush high
  | cons b rest ih =>
    intro st high skip
    cases st with
    | outside =>
      cases skip with
      | succ k =>
        simp only [unquoteFrom]
        exact ih _ _ _
      | zero =>
        simp only [unquoteFrom]
        split_ifs with h1 h2
        · exact ih _ _ _
        · exact valid_append _ _ (valid_flush high) (valid_cons_ascii b _ h2 (ih _ _ _))
        · exact valid_append _ _ (valid_append _ _ (valid_flush high) (valid_encodeRune _))
            (ih _ _ _)
    | backslash =>
      simp only [unquoteFrom]
      split_ifs with h1
      · exact ih _ _ _
      · exact valid_append _ _ (valid_append _ _ (valid_flush high) (valid_escByte b)) (ih _ _ _)
    | hex more acc =>
      cases more with
      | succ m =>
        simp only [unquoteFrom]
        exact ih _ _ _
      | zero =>
        simp only [unquoteFrom]
        split_ifs with h1 h2
        · exact valid_append _ _ (valid_flush high) (ih _ _ _)
        · cases high with
          | none => exact valid_append _ _ (valid_encodeRune _) (ih _ _ _)
          | some hi => exact valid_append _ _ (valid_encodeRune _) (ih _ _ _)
        · exact valid_append _ _ (valid_append _ _ (valid_flush high) (valid_encodeRune _))
            (ih _ _ _)

/-- The text of a JSON string is valid UTF-8, whatever bytes the string holds. -/
theorem valid_unquote (raw : List Nat) : ValidString (unquote raw) = true :=
  valid_unquoteFrom raw .outside none 0

/-! ## The library models on known values -/

/-- Encoding and validity on known texts: one to four bytes per code point; a
lone 0xFF, an overlong form, an encoded surrogate and a cut-off sequence are not
valid; decoding gives back the code point, or U+FFFD and width 1. -/
theorem utf8_known :
    bytes "é€😀a" = [0xC3, 0xA9, 0xE2, 0x82, 0xAC, 0xF0, 0x9F, 0x98, 0x80, 0x61] ∧
    ValidString (bytes "é€😀a") = true ∧
    ValidString [0xFF] = false ∧
    ValidString [0xC0, 0x80] = false ∧
    ValidString [0xED, 0xA0, 0x80] = false ∧
    ValidString [0xE2, 0x82] = false ∧
    decodeRune [0xE2, 0x82, 0xAC, 0x41] = (0x20AC, 3) ∧
    decodeRune [0xF0, 0x9F, 0x98, 0x80] = (0x1F600, 4) ∧
    decodeRune [0xC3] = (0xFFFD, 1) := by
  decide

/-- Known instants: the Unix epoch, the zero time, a leap day, a zone offset with
a fraction; forms only the general layout parser takes (one-digit hour, comma
before the fraction, offsets of 24 hours and of 60 minutes); and texts that are
not timestamps. -/
theorem parseStrictRFC3339_known :
    parseStrictRFC3339 (bytes "1970-01-01T00:00:00Z") = some 0 ∧
    parseStrictRFC3339 (bytes "0001-01-01T00:00:00Z") = some zeroTime ∧
    parseStrictRFC3339 (bytes "2016-02-29T08:22:00Z") = some (1456734120 * 1000000000) ∧
    parseStrictRFC3339 (bytes "2017-09-18T08:22:00.5+02:00") =
      some (1505715720 * 1000000000 + 500000000) ∧
    parseLayout (bytes "2017-09-18T08:22:00.5+02:00") =
      some (1505715720 * 1000000000 + 500000000) ∧
    parseRFC3339 (bytes "2017-09-18T8:22:00Z") = none ∧
    parseStrictRFC3339 (bytes "2017-09-18T8:22:00Z") = some (1505722920 * 1000000000) ∧
    parseStrictRFC3339 (bytes "2017-09-18T08:22:00,5Z") =
      some (1505722920 * 1000000000 + 500000000) ∧
    parseStrictRFC3339 (bytes "2017-09-18T08:22:00+24:00") =
      some ((1505722920 - 86400) * 1000000000) ∧
    parseStrictRFC3339 (bytes "2017-09-18T08:22:00-00:60") =
      some ((1505722920 + 3600) * 1000000000) ∧
    parseStrictRFC3339 (bytes "2017-09-18T08:22:00+25:00") = none ∧
    parseStrictRFC3339 (bytes "2017-02-29T08:22:00Z") = none ∧
    parseStrictRFC3339 (bytes "2017-09-18T24:22:00Z") = none ∧
    parseStrictRFC3339 (bytes "2017-9-18T08:22:00Z") = none ∧
    parseStrictRFC3339 (bytes "2017-09-18 08:22:00") = none ∧
    parseStrictRFC3339 (bytes "2017-09-18T08:22:00Zx") = none ∧
    parseStrictRFC3339 (bytes "soon") = none := by
  decide

/-- Escapes: one-letter escapes, a code unit, a surrogate pair, a lone
surrogate; bytes that are not UTF-8 become U+FFFD. -/
theorem unquote_known :
    unquote (bytes "a\\n\\u0041\\ud83d\\ude00\\ud83dx\\u00e9") = bytes "a\nA😀�xé" ∧
    unquote (bytes "é€😀") = bytes "é€😀" ∧
    unquote (bytes "\\u0061ction\\/\\\\") = bytes "action/\\" ∧
    unquote [0x61, 0xFF, 0xC3, 0xA9, 0xE2, 0x82, 0x62] =
      [0x61, 0xEF, 0xBF, 0xBD, 0xC3, 0xA9, 0xEF, 0xBF, 0xBD, 0xEF, 0xBF, 0xBD, 0x62] := by
  decide

/-- What `Unmarshal` gives on typical payloads: a full notice (keys match
ignoring case), `null` and the empty object (nothing stored, nil error), a
wrong kind for a field, a text that is no timestamp, a non-object, broken and
empty input. -/
theorem unmarshal_known :
    Unmarshal (bytes "\x7b\"Action\": \"terminate\", \"TIME\": \"2017-09-18T08:22:00Z\"\x7d") =
      .ok ⟨bytes "terminate", 1505722920 * 1000000000⟩ ∧
    Unmarshal (bytes "null") = .ok ⟨[], zeroTime⟩ ∧
    Unmarshal emptyObjectBody = .ok ⟨[], zeroTime⟩ ∧
    Unmarshal (bytes "\x7b\"action\": 5\x7d") = .error (.unmarshalTypeError "number") ∧
    Unmarshal (bytes "\x7b\"action\": \"x\", \"time\": \"soon\"\x7d") = .error .timeError ∧
    Unmarshal (bytes "[1, 2.5e3, true]") = .error (.unmarshalTypeError "array") ∧
    Unmarshal (bytes "\x7b\"action\": \"x\",\x7d") = .error .syntaxError ∧
    Unmarshal (bytes " ") = .error .syntaxError := by
  decide

/-! ## `Time.Sub` -/

theorem sub_pos_iff (t u : Int) : 0 < Time.Sub t u ↔ 0 < t - u := by
  unfold Time.Sub minDuration maxDuration
  split_ifs <;> omega

theorem sub_of_pos (t u : Int) (h : 0 < t - u) : Time.Sub t u = min (t - u) maxDuration := by
  unfold Time.Sub minDuration maxDuration
  split_ifs <;> omega

theorem sub_antitone (t u1 u2 : Int) (h : u1 ≤ u2) : Time.Sub t u2 ≤ Time.Sub t u1 := by
  unfold Time.Sub minDuration maxDuration
  split_ifs <;> omega

/-! ## Decoding an object into `InstanceAction` -/

theorem storeMember_of_wellformed (d : Decoding) (m : List Nat × JValue)
    (h : memberMalformed m = false) :
    ∃ ia, storeMember d m = .ok ⟨ia, d.saved⟩ ∧
      (keyMatches "action" (unquote m.1) = false → ia.Action = d.ia.Action) ∧
      (keyMatches "time" (unquote m.1) = false → ia.Time = d.ia.Time) := by
  obtain ⟨k, v⟩ := m
  unfold memberMalformed at h
  unfold storeMember
  by_cases ha : keyMatches "action" (unquote k) = true
  · simp only [ha, if_true] at h ⊢
    cases v with
    | null => exact ⟨d.ia, rfl, fun _ => rfl, fun _ => rfl⟩
    | string raw => exact ⟨_, rfl, fun hf => by simp at hf, fun _ => rfl⟩
    | _ => simp at h
  · by_cases ht : keyMatches "time" (unquote k) = true
    · simp only [ha, ht, if_true, if_false] at h ⊢
      cases v with
      | null => exact ⟨d.ia, rfl, fun _ => rfl, fun _ => rfl⟩
      | string raw =>
        cases hp : parseStrictRFC3339 raw with
        | none => simp [hp] at h
        | some t =>
          exact ⟨⟨d.ia.Action, t⟩, by simp [hp], fun _ => rfl, fun hf => by simp [ht] at hf⟩
      | _ => simp at h
    · simp only [ha, ht, if_false]
      exact ⟨d.ia, rfl, fun _ => rfl, fun _ => rfl⟩

theorem storeMembers_of_wellformed (ms : List (List Nat × JValue)) (d : Decoding)
    (h : ∀ m ∈ ms, memberMalformed m = false) :
    ∃ ia, storeMembers d ms = .ok ⟨ia, d.saved⟩ ∧
      ((∀ m ∈ ms, keyMatches "action" (unquote m.1) = false) → ia.Action = d.ia.Action) ∧
      ((∀ m ∈ ms, keyMatches "time" (unquote m.1) = false) → ia.Time = d.ia.Time) := by
  induction ms generalizing d with
  | nil => exact ⟨d.ia, rfl, fun _ => rfl, fun _ => rfl⟩
  | cons m rest ih =>
    obtain ⟨ia1, h1, ha1, ht1⟩ :=
      storeMember_of_wellformed d m (h m (List.mem_cons_self _ _))
    obtain ⟨ia2, h2, ha2, ht2⟩ :=
      ih ⟨ia1, d.saved⟩ (fun x hx => h x (List.mem_cons_of_mem _ hx))
    refine ⟨ia2, ?_, ?_, ?_⟩
    · simp only [storeMembers, h1, h2]
    · intro hall
      rw [ha2 (fun x hx => hall x (List.mem_cons_of_mem _ hx))]
      exact ha1 (hall m (List.mem_cons_self _ _))
    · intro hall
      rw [ht2 (fun x hx => hall x (List.mem_cons_of_mem _ hx))]
      exact ht1 (hall m (List.mem_cons_self _ _))

theorem storeMember_keeps_saved (d d1 : Decoding) (m : List Nat × JValue)
    (h : storeMember d m = .ok d1) (hs : d.saved.isSome = true) : d1.saved.isSome = true := by
  obtain ⟨k, v⟩ := m
  unfold storeMember at h
  obtain ⟨ia, sv⟩ := d
  cases sv with
  | none => simp at hs
  | some e0 =>
    split_ifs at h
    · cases v <;> simp [Decoding.saveError] at h <;> subst h <;> rfl
    · cases v with
      | string raw =>
        cases hp : parseStrictRFC3339 raw with
        | none => simp [hp] at h
        | some t => simp [hp] at h; subst h; rfl
      | null => simp at h; subst h; rfl
      | _ => simp at h
    · simp at h; subst h; rfl

theorem storeMembers_failed_of_saved (ms : List (List Nat × JValue)) (d : Decoding)
    (hs : d.saved.isSome = true) : DecodeFailed (storeMembers d ms) := by
  induction ms generalizing d with
  | nil => exact hs
  | cons m rest ih =>
    cases h1 : storeMember d m with
    | error e => simp [storeMembers, h1, DecodeFailed]
    | ok d1 =>
      simp only [storeMembers, h1]
      exact ih d1 (storeMember_keeps_saved d d1 m h1 hs)

theorem storeMember_of_malformed (d d1 : Decoding) (m : List Nat × JValue)
    (hm : memberMalformed m = true) (h : storeMember d m = .ok d1) :
    d1.saved.isSome = true := by
  obtain ⟨k, v⟩ := m
  unfold memberMalformed at hm
  unfold storeMember at h
  obtain ⟨ia, sv⟩ := d
  by_cases ha : keyMatches "action" (unquote k) = true
  · simp only [ha, if_true] at hm h
    cases v <;> simp at hm <;> cases sv <;> simp [Decoding.saveError] at h <;> subst h <;> rfl
  · by_cases ht : keyMatches "time" (unquote k) = true
    · simp only [ha, ht, if_true, if_false] at hm h
      cases v with
      | string raw =>
        cases hp : parseStrictRFC3339 raw with
        | none => simp [hp] at h
        | some t => simp [hp] at hm
      | null => simp at hm
      | _ => simp at h
    · simp [ha, ht] at hm

theorem storeMembers_of_malformed (ms : List (List Nat × JValue)) (d : Decoding)
    (h : ∃ m ∈ ms, memberMalformed m = true) : DecodeFailed (storeMembers d ms) := by
  induction ms generalizing d with
  | nil => obtain ⟨m, hm, _⟩ := h; cases hm
  | cons m rest ih =>
    cases h1 : storeMember d m with
    | error e => simp [storeMembers, h1, DecodeFailed]
    | ok d1 =>
      simp only [storeMembers, h1]
      obtain ⟨x, hx, hbad⟩ := h
      rcases List.mem_cons.1 hx with rfl | hx
      · exact storeMembers_failed_of_saved rest d1 (storeMember_of_malformed d d1 x hbad h1)
      · exact ih d1 ⟨x, hx, hbad⟩

theorem decodeValue_object_of_malformed (ms : List (List Nat × JValue))
    (h : ∃ m ∈ ms, memberMalformed m = true) : ∃ e, decodeValue (.object ms) = .error e := by
  have hf := storeMembers_of_malformed ms ⟨⟨[], zeroTime⟩, none⟩ h
  cases hr : storeMembers ⟨⟨[], zeroTime⟩, none⟩ ms with
  | error e => exact ⟨e, by simp only [decodeValue, hr]⟩
  | ok d =>
    obtain ⟨ia, sv⟩ := d
    rw [hr] at hf
    cases sv with
    | none => simp [DecodeFailed] at hf
    | some e => exact ⟨e, by simp only [decodeValue, hr]⟩

theorem decodeValue_object_of_wellformed (ms : List (List Nat × JValue))
    (h : ∀ m ∈ ms, memberMalformed m = false) :
    ∃ ia, decodeValue (.object ms) = .ok ia ∧
      ((∀ m ∈ ms, keyMatches "action" (unquote m.1) = false) → ia.Action = []) ∧
      ((∀ m ∈ ms, keyMatches "time" (unquote m.1) = false) → ia.Time = zeroTime) := by
  obtain ⟨ia, hs, ha, ht⟩ := storeMembers_of_wellformed ms ⟨⟨[], zeroTime⟩, none⟩ h
  refine ⟨ia, ?_, ha, ht⟩
  simp only [decodeValue, hs]

/-- Storing a member keeps the action valid UTF-8. -/
theorem storeMember_valid (d d1 : Decoding) (m : List Nat × JValue)
    (h : storeMember d m = .ok d1) (hv : ValidString d.ia.Action = true) :
    ValidString d1.ia.Action = true := by
  obtain ⟨k, v⟩ := m
  unfold storeMember at h
  split_ifs at h
  · cases v with
    | string raw =>
      simp only [Except.ok.injEq] at h
      subst h
      exact valid_unquote raw
    | null => simp only [Except.ok.injEq] at h; subst h; exact hv
    | bool b =>
      simp only [Except.ok.injEq] at h; subst h
      unfold Decoding.saveError; split <;> exact hv
    | number raw =>
      simp only [Except.ok.injEq] at h; subst h
      unfold Decoding.saveError; split <;> exact hv
    | array es =>
      simp only [Except.ok.injEq] at h; subst h
      unfold Decoding.saveError; split <;> exact hv
    | object ms =>
      simp only [Except.ok.injEq] at h; subst h
      unfold Decoding.saveError; split <;> exact hv
  · cases v with
    | string raw =>
      cases hp : parseStrictRFC3339 raw with
      | none => simp [hp] at h
      | some t => simp [hp] at h; subst h; exact hv
    | null => simp at h; subst h; exact hv
    | _ => simp at h
  · simp only [Except.ok.injEq] at h; subst h; exact hv

theorem storeMembers_valid (ms : List (List Nat × JValue)) (d d1 : Decoding)
    (h : storeMembers d ms = .ok d1) (hv : ValidString d.ia.Action = true) :
    ValidString d1.ia.Action = true := by
  induction ms generalizing d with
  | nil =>
    simp only [storeMembers, Except.ok.injEq] at h
    subst h
    exact hv
  | cons m rest ih =>
    cases h1 : storeMember d m with
    | error e => simp [storeMembers, h1] at h
    | ok d2 =>
      simp only [storeMembers, h1] at h
      exact ih d2 h (storeMember_valid d d2 m h1 hv)

/-- A decoded action is valid UTF-8, whatever bytes the body holds. -/
theorem unmarshal_valid (data : GoString) (ia : InstanceAction)
    (h : Unmarshal data = .ok ia) : ValidString ia.Action = true := by
  unfold Unmarshal at h
  cases hp : parseJSON data with
  | none => simp [hp] at h
  | some v =>
    simp only [hp] at h
    cases v with
    | null =>
      simp only [decodeValue, Except.ok.injEq] at h
      subst h
      rfl
    | object ms =>
      simp only [decodeValue] at h
      cases hs : storeMembers ⟨⟨[], zeroTime⟩, none⟩ ms with
      | error e => simp [hs] at h
      | ok d =>
        obtain ⟨ia1, sv⟩ := d
        have hv := storeMembers_valid ms _ _ hs rfl
        cases sv with
        | none =>
          simp only [hs, Except.ok.injEq] at h
          subst h
          exact hv
        | some e => simp [hs] at h
    | bool b => simp [decodeValue] at h
    | number raw => simp [decodeValue] at h
    | string raw => simp [decodeValue] at h
    | array es => simp [decodeValue] at h

/-! ## `MustNewConstMetric` -/

theorem must_ok (d : Desc) (v : Value) (vals : List GoString)
    (hlen : vals.length = d.variableLabels.len) (hv : vals.all ValidString = true) :
    MustNewConstMetric d v vals = .ok ⟨d, v, vals⟩ := by
  simp [MustNewConstMetric, hlen, hv]

theorem must_invalid (d : Desc) (v : Value) (vals : List GoString)
    (hlen : vals.length = d.variableLabels.len) (hv : vals.all ValidString = false) :
    MustNewConstMetric d v vals = .error .invalidUTF8 := by
  simp [MustNewConstMetric, hlen, hv]

theorem must_ok_eq (d : Desc) (v : Value) (vals : List GoString) (m : Metric)
    (h : MustNewConstMetric d v vals = .ok m) : m = ⟨d, v, vals⟩ := by
  unfold MustNewConstMetric at h
  split_ifs at h
  simp only [Except.ok.injEq] at h
  exact h.symm

/-! ## `Collect`: the outcomes of the action fetch -/

theorem fetchedLabels_eq (c : terminationCollector) (client : Client) :
    fetchedLabels c client =
      [(getMetadata c client (bytes "placement/availability-zone")).value,
       (getMetadata c client (bytes "hostname")).value,
       (getMetadata c client (bytes "instance-id")).value,
       (getMetadata c client (bytes "instance-type")).value] := rfl

theorem fetchedLabels_length (c : terminationCollector) (client : Client) :
    (fetchedLabels c client).length = 4 := rfl

theorem all_valid_append (vals : List GoString) (a : GoString) (ha : ValidString a = true) :
    (vals ++ [a]).all ValidString = vals.all ValidString := by
  simp [List.all_append, ha]

theorem unmarshal_empty : Unmarshal [] = .error .syntaxError := by decide

/-- `Collect` with the five label values of the indicator written as the four
fetched values and the action. -/
theorem collect_unfold (c : terminationCollector) (client : Client) (now : Time) :
    (Collect c client now).sent =
      (match (getMetadata c client (bytes "spot/instance-action")).err with
      | some _ => []
      | none =>
        if (getMetadata c client (bytes "spot/instance-action")).value = [] then
          match MustNewConstMetric c.terminationIndicator (.lit 0)
              (fetchedLabels c client ++
                [(getMetadata c client (bytes "spot/instance-action")).value]) with
          | .error _ => []
          | .ok m => [m]
        else
          match Unmarshal (getMetadata c client (bytes "spot/instance-action")).value with
          | .error _ =>
            match MustNewConstMetric c.terminationIndicator (.lit 0)
                (fetchedLabels c client ++ [[]]) with
            | .error _ => []
            | .ok m => [m]
          | .ok ia =>
            match MustNewConstMetric c.terminationIndicator (.lit 1)
                (fetchedLabels c client ++ [ia.Action]) with
            | .error _ => []
            | .ok m1 =>
              if 0 < Time.Sub ia.Time now then
                match MustNewConstMetric c.terminationTime (.seconds (Time.Sub ia.Time now))
                    (fetchedLabels c client) with
                | .error _ => [m1]
                | .ok m2 => [m1, m2]
              else [m1]) ∧
    (Collect c client now).panic =
      (match (getMetadata c client (bytes "spot/instance-action")).err with
      | some _ => none
      | none =>
        if (getMetadata c client (bytes "spot/instance-action")).value = [] then
          match MustNewConstMetric c.terminationIndicator (.lit 0)
              (fetchedLabels c client ++
                [(getMetadata c client (bytes "spot/instance-action")).value]) with
          | .error p => some p
          | .ok _ => none
        else
          match Unmarshal (getMetadata c client (bytes "spot/instance-action")).value with
          | .error _ =>
            match MustNewConstMetric c.terminationIndicator (.lit 0)
                (fetchedLabels c client ++ [[]]) with
            | .error p => some p
            | .ok _ => none
          | .ok ia =>
            match MustNewConstMetric c.terminationIndicator (.lit 1)
                (fetchedLabels c client ++ [ia.Action]) with
            | .error p => some p
            | .ok _ =>
              if 0 < Time.Sub ia.Time now then
                match MustNewConstMetric c.terminationTime (.seconds (Time.Sub ia.Time now))
                    (fetchedLabels c client) with
                | .error p => some p
                | .ok _ => none
              else none) := by
  unfold Collect
  simp only [fetchedLabels_eq, List.cons_append, List.nil_append]
  constructor
  · cases (getMetadata c client (bytes "spot/instance-action")).err with
    | some e => rfl
    | none =>
      simp only []
      split_ifs
      · cases MustNewConstMetric c.terminationIndicator (.lit 0) _ <;> rfl
      · cases Unmarshal (getMetadata c client (bytes "spot/instance-action")).value with
        | error e => simp only []; cases MustNewConstMetric c.terminationIndicator (.lit 0) _ <;> rfl
        | ok ia =>
          simp only []
          cases MustNewConstMetric c.terminationIndicator (.lit 1) _ with
          | error p => rfl
          | ok m1 =>
            simp only []
            split_ifs
            · cases MustNewConstMetric c.terminationTime _ _ <;> rfl
            · rfl
  · cases (getMetadata c client (bytes "spot/instance-action")).err with
    | some e => rfl
    | none =>
      simp only []
      split_ifs
      · cases MustNewConstMetric c.terminationIndicator (.lit 0) _ <;> rfl
      · cases Unmarshal (getMetadata c client (bytes "spot/instance-action")).value with
        | error e => simp only []; cases MustNewConstMetric c.terminationIndicator (.lit 0) _ <;> rfl
        | ok ia =>
          simp only []
          cases MustNewConstMetric c.terminationIndicator (.lit 1) _ with
          | error p => rfl
          | ok m1 =>
            simp only []
            split_ifs
            · cases MustNewConstMetric c.terminationTime _ _ <;> rfl
            · rfl

/-- The action fetch failed: nothing is sent, nothing panics. -/
theorem collect_of_fetch_error (c : terminationCollector) (client : Client) (now : Time)
    (e : String) (h : (getMetadata c client (bytes "spot/instance-action")).err = some e) :
    (Collect c client now).sent = [] ∧ (Collect c client now).panic = none := by
  obtain ⟨hs, hp⟩ := collect_unfold c client now
  rw [hs, hp]
  simp only [h, and_self]

/-- The action fetch gave the empty string and no error; the labels are valid. -/
theorem collect_of_absent (c : terminationCollector) (client : Client) (now : Time)
    (hI : c.terminationIndicator.variableLabels.len = 5)
    (herr : (getMetadata c client (bytes "spot/instance-action")).err = none)
    (hval : (getMetadata c client (bytes "spot/instance-action")).value = [])
    (hv : (fetchedLabels c client).all ValidString = true) :
    (Collect c client now).sent =
      [⟨c.terminationIndicator, .lit 0, fetchedLabels c client ++ [[]]⟩] ∧
    (Collect c client now).panic = none := by
  obtain ⟨hs, hp⟩ := collect_unfold c client now
  have hm := must_ok c.terminationIndicator (.lit 0) (fetchedLabels c client ++ [[]])
    (by simp [fetchedLabels_length, hI]) (by rw [all_valid_append _ [] rfl]; exact hv)
  rw [hs, hp]
  simp only [herr, hval, hm, if_true, and_self]

/-- The action fetch gave a text that does not decode; the labels are valid. -/
theorem collect_of_decode_error (c : terminationCollector) (client : Client) (now : Time)
    (e : JsonError)
    (hI : c.terminationIndicator.variableLabels.len = 5)
    (herr : (getMetadata c client (bytes "spot/instance-action")).err = none)
    (hval : (getMetadata c client (bytes "spot/instance-action")).value ≠ [])
    (hdec : Unmarshal (getMetadata c client (bytes "spot/instance-action")).value = .error e)
    (hv : (fetchedLabels c client).all ValidString = true) :
    (Collect c client now).sent =
      [⟨c.terminationIndicator, .lit 0, fetchedLabels c client ++ [[]]⟩] ∧
    (Collect c client now).panic = none := by
  obtain ⟨hs, hp⟩ := collect_unfold c client now
  have hm := must_ok c.terminationIndicator (.lit 0) (fetchedLabels c client ++ [[]])
    (by simp [fetchedLabels_length, hI]) (by rw [all_valid_append _ [] rfl]; exact hv)
  rw [hs, hp]
  simp only [herr, hval, hdec, hm, if_false, and_self]

/-- The action fetch gave a text that decodes; the labels are valid. -/
theorem collect_of_decoded (c : terminationCollector) (client : Client) (now : Time)
    (ia : InstanceAction)
    (hI : c.terminationIndicator.variableLabels.len = 5)
    (hT : c.terminationTime.variableLabels.len = 4)
    (herr : (getMetadata c client (bytes "spot/instance-action")).err = none)
    (hdec : Unmarshal (getMetadata c client (bytes "spot/instance-action")).value = .ok ia)
    (hv : (fetchedLabels c client).all ValidString = true) :
    (Collect c client now).sent =
      ⟨c.terminationIndicator, .lit 1, fetchedLabels c client ++ [ia.Action]⟩ ::
        (if 0 < Time.Sub ia.Time now then
          [⟨c.terminationTime, .seconds (Time.Sub ia.Time now), fetchedLabels c client⟩]
        else []) ∧
    (Collect c client now).panic = none := by
  have hval : (getMetadata c client (bytes "spot/instance-action")).value ≠ [] := by
    intro h0
    rw [h0, unmarshal_empty] at hdec
    cases hdec
  obtain ⟨hs, hp⟩ := collect_unfold c client now
  have hm1 := must_ok c.terminationIndicator (.lit 1) (fetchedLabels c client ++ [ia.Action])
    (by simp [fetchedLabels_length, hI])
    (by rw [all_valid_append _ _ (unmarshal_valid _ ia hdec)]; exact hv)
  have hm2 := must_ok c.terminationTime (.seconds (Time.Sub ia.Time now)) (fetchedLabels c client)
    (by simp [fetchedLabels_length, hT]) hv
  rw [hs, hp]
  by_cases hpos : 0 < Time.Sub ia.Time now
  · simp only [herr, hval, hdec, hm1, hm2, hpos, if_true, if_false, and_self]
  · simp only [herr, hval, hdec, hm1, hpos, if_false, and_self]

/-- The action fetch returned without error, and a fetched label value is not
valid UTF-8: the first `MustNewConstMetric` panics and nothing is sent. -/
theorem collect_of_invalid (c : terminationCollector) (client : Client) (now : Time)
    (hI : c.terminationIndicator.variableLabels.len = 5)
    (herr : (getMetadata c client (bytes "spot/instance-action")).err = none)
    (hv : (fetchedLabels c client).all ValidString = false) :
    (Collect c client now).sent = [] ∧
    (Collect c client now).panic = some .invalidUTF8 := by
  obtain ⟨hs, hp⟩ := collect_unfold c client now
  have hm : ∀ (v : Value) (a : GoString),
      MustNewConstMetric c.terminationIndicator v (fetchedLabels c client ++ [a]) =
        .error .invalidUTF8 := by
    intro v a
    exact must_invalid _ _ _ (by simp [fetchedLabels_length, hI])
      (by simp [List.all_append, hv])
  rw [hs, hp]
  simp only [herr, hm]
  by_cases hval : (getMetadata c client (bytes "spot/instance-action")).value = []
  · simp only [hval, if_true, and_self]
  · cases hdec : Unmarshal (getMetadata c client (bytes "spot/instance-action")).value <;>
      simp only [hval, if_false, and_self]

/-- The log holds the parse error when the action text does not decode. -/
theorem collect_log_of_decode_error (c : terminationCollector) (client : Client) (now : Time)
    (e : JsonError)
    (herr : (getMetadata c client (bytes "spot/instance-action")).err = none)
    (hval : (getMetadata c client (bytes "spot/instance-action")).value ≠ [])
    (hdec : Unmarshal (getMetadata c client (bytes "spot/instance-action")).value = .error e) :
    (⟨.error, "Couldn't parse instance-action metadata: %s"⟩ : LogEntry) ∈
      (Collect c client now).log := by
  unfold Collect
  simp only [herr, hval, hdec, if_false]
  cases MustNewConstMetric c.terminationIndicator (.lit 0) _ <;> simp

/-- The shapes the list of sent metrics can take, for any collector. -/
theorem collect_sent_shape (c : terminationCollector) (client : Client) (now : Time) :
    (Collect c client now).sent = [] ∨
    (∃ v a, (Collect c client now).sent =
      [⟨c.terminationIndicator, .lit v, fetchedLabels c client ++ [a]⟩]) ∨
    (∃ a d, (Collect c client now).sent =
      [⟨c.terminationIndicator, .lit 1, fetchedLabels c client ++ [a]⟩,
       ⟨c.terminationTime, .seconds d, fetchedLabels c client⟩]) := by
  rw [(collect_unfold c client now).1]
  cases (getMetadata c client (bytes "spot/instance-action")).err with
  | some e => exact Or.inl rfl
  | none =>
    simp only []
    split_ifs
    · cases hm : MustNewConstMetric c.terminationIndicator (.lit 0)
          (fetchedLabels c client ++
            [(getMetadata c client (bytes "spot/instance-action")).value]) with
      | error p => exact Or.inl rfl
      | ok m => exact Or.inr (Or.inl ⟨0, _, by rw [must_ok_eq _ _ _ _ hm]⟩)
    · cases Unmarshal (getMetadata c client (bytes "spot/instance-action")).value with
      | error e =>
        simp only []
        cases hm : MustNewConstMetric c.terminationIndicator (.lit 0)
            (fetchedLabels c client ++ [[]]) with
        | error p => exact Or.inl rfl
        | ok m => exact Or.inr (Or.inl ⟨0, _, by rw [must_ok_eq _ _ _ _ hm]⟩)
      | ok ia =>
        simp only []
        cases hm : MustNewConstMetric c.terminationIndicator (.lit 1)
            (fetchedLabels c client ++ [ia.Action]) with
        | error p => exact Or.inl rfl
        | ok m1 =>
          simp only []
          rw [must_ok_eq _ _ _ _ hm]
          split_ifs with hpos
          · cases hm2 : MustNewConstMetric c.terminationTime
                (.seconds (Time.Sub ia.Time now)) (fetchedLabels c client) with
            | error p => exact Or.inr (Or.inl ⟨1, _, rfl⟩)
            | ok m2 => exact Or.inr (Or.inr ⟨_, _, by rw [must_ok_eq _ _ _ _ hm2]⟩)
          · exact Or.inr (Or.inl ⟨1, _, rfl⟩)

/-- The fetch of a path depends on the client only through the outcome for
`endpoint + path`. -/
theorem getMetadata_congr (c : terminationCollector) (client client2 : Client) (path : GoString)
    (h : client2 (c.metadataEndpoint ++ path) = client (c.metadataEndpoint ++ path)) :
    getMetadata c client2 path = getMetadata c client path := by
  simp [getMetadata, h]

theorem fetchedLabels_getElem (c : terminationCollector) (client : Client) (i : Nat)
    (p : GoString) (hp : labelPaths[i]? = some p) :
    (fetchedLabels c client)[i]? = some (getMetadata c client p).value := by
  simp [fetchedLabels, List.getElem?_map, hp]

theorem labelPaths_index (i : Nat) (p : GoString) (hp : labelPaths[i]? = some p) : i < 4 := by
  have h := (List.getElem?_eq_some.1 hp).1
  simpa [labelPaths] using h

/-- Every sent metric carries the four fetched label values first. -/
theorem collect_labels_first (c : terminationCollector) (client : Client) (now : Time)
    (m : Metric) (hm : m ∈ (Collect c client now).sent) (i : Nat) (p : GoString)
    (hp : labelPaths[i]? = some p) :
    m.labelValues[i]? = some (getMetadata c client p).value := by
  have hi : i < (fetchedLabels c client).length := by
    have := labelPaths_index i p hp
    simpa [fetchedLabels, labelPaths] using this
  have hf := fetchedLabels_getElem c client i p hp
  rcases collect_sent_shape c client now with h | ⟨v, a, h⟩ | ⟨a, d, h⟩
  · rw [h] at hm; cases hm
  · rw [h] at hm
    simp only [List.mem_singleton] at hm
    subst hm
    simp only [List.getElem?_append_left hi, hf]
  · rw [h] at hm
    simp only [List.mem_cons, List.mem_singleton, List.not_mem_nil, or_false] at hm
    rcases hm with rfl | rfl
    · simp only [List.getElem?_append_left hi, hf]
    · exact hf

/-- A collector whose descriptors carry 5 and 4 label names: the only panic
there can be is the one for a label value that is not valid UTF-8, and it
happens exactly when the action fetch returns without error and a fetched label
value is not valid. -/
theorem collect_panic (c : terminationCollector) (client : Client) (now : Time)
    (hI : c.terminationIndicator.variableLabels.len = 5)
    (hT : c.terminationTime.variableLabels.len = 4) :
    (Collect c client now).panic =
      (if (getMetadata c client (bytes "spot/instance-action")).err = none ∧
          (fetchedLabels c client).all ValidString = false then some .invalidUTF8 else none) := by
  cases herr : (getMetadata c client (bytes "spot/instance-action")).err with
  | some e => simp [(collect_of_fetch_error c client now e herr).2]
  | none =>
    cases hv : (fetchedLabels c client).all ValidString with
    | false => simp [(collect_of_invalid c client now hI herr hv).2]
    | true =>
      by_cases hval : (getMetadata c client (bytes "spot/instance-action")).value = []
      · simp [(collect_of_absent c client now hI herr hval hv).2]
      · cases hdec : Unmarshal (getMetadata c client (bytes "spot/instance-action")).value with
        | error e => simp [(collect_of_decode_error c client now e hI herr hval hdec hv).2]
        | ok ia => simp [(collect_of_decoded c client now ia hI hT herr hdec hv).2]

/-! ## `NewTerminationCollector` and `Describe` -/

/-- C9: in every reachable package state (any calls before), `NewTerminationCollector`
builds the indicator descriptor `aws_instance_termination_imminent` with the five
label names and the time descriptor `aws_instance_termination_in` with the four,
and leaves `labels` as it was; `Describe` sends these two descriptors, indicator
first, and they read the same after any later calls. -/
theorem descriptors_fixed (before later : List Call) (me : GoString) :
    (NewTerminationCollector (initGlobals.after before) me).1.terminationIndicator.view
        (NewTerminationCollector (initGlobals.after before) me).2.heap =
      ("aws_instance_termination_imminent",
        ["availability_zone", "hostname", "instance_id", "instance_type", "instance_action"]) ∧
    (NewTerminationCollector (initGlobals.after before) me).1.terminationTime.view
        (NewTerminationCollector (initGlobals.after before) me).2.heap =
      ("aws_instance_termination_in",
        ["availability_zone", "hostname", "instance_id", "instance_type"]) ∧
    (NewTerminationCollector (initGlobals.after before) me).2.labels =
      (initGlobals.after before).labels ∧
    (initGlobals.after before).labels.read (initGlobals.after before).heap =
      ["availability_zone", "hostname", "instance_id", "instance_type"] ∧
    (NewTerminationCollector (initGlobals.after before) me).2.labels.read
        (NewTerminationCollector (initGlobals.after before) me).2.heap =
      ["availability_zone", "hostname", "instance_id", "instance_type"] ∧
    Describe (NewTerminationCollector (initGlobals.after before) me).1 =
      [(NewTerminationCollector (initGlobals.after before) me).1.terminationIndicator,
       (NewTerminationCollector (initGlobals.after before) me).1.terminationTime] ∧
    (Describe (NewTerminationCollector (initGlobals.after before) me).1).map
        (Desc.view ((NewTerminationCollector (initGlobals.after before) me).2.after later).heap) =
      [("aws_instance_termination_imminent",
          ["availability_zone", "hostname", "instance_id", "instance_type", "instance_action"]),
       ("aws_instance_termination_in",
          ["availability_zone", "hostname", "instance_id", "instance_type"])] ∧
    ((NewTerminationCollector (initGlobals.after before) me).2.after later).labels.read
        ((NewTerminationCollector (initGlobals.after before) me).2.after later).heap =
      ["availability_zone", "hostname", "instance_id", "instance_type"] := by
  obtain ⟨⟨tail, ht⟩, _⟩ := wellFormed_after before initGlobals wellFormed_init
  obtain ⟨⟨tail2, ht2⟩, extra, hext⟩ := wellFormed_after later
    (NewTerminationCollector (initGlobals.after before) me).2
    (by rw [ht, newTerminationCollector_eq]; exact ⟨_, rfl⟩)
  rw [ht2] at hext
  rw [ht2]
  rw [ht, newTerminationCollector_eq] at hext ⊢
  simp only at hext
  have hI : (⟨tail.length + 1, 5, 8⟩ : Slice).read
      (labelNames4 :: (tail ++ [labelNames4 ++ ["instance_action", "", "", ""]])) =
      ["availability_zone", "hostname", "instance_id", "instance_type", "instance_action"] := by
    simp [Slice.read, labelNames4]
  have hT : ∀ t : Heap, (⟨0, 4, 4⟩ : Slice).read (labelNames4 :: t) =
      ["availability_zone", "hostname", "instance_id", "instance_type"] := by
    intro t
    simp [Slice.read, labelNames4]
  refine ⟨?_, ?_, rfl, hT _, hT _, rfl, ?_, hT _⟩
  · simp only [Desc.view, Desc.labelNames, hI]
  · simp only [Desc.view, Desc.labelNames, hT]
  · simp only [Describe, List.map, Desc.view, Desc.labelNames, hT]
    rw [hext, read_append _ _ _ (by simp), hI]

/-! ## `getMetadata` -/

/-- C6 (as stated, refuted): a response with status 200 whose body breaks off
after three bytes makes `getMetadata` return those three bytes with a nil
error, not the full body. -/
theorem getMetadata_truncated_body :
    getMetadata exampleCollector (labelledService (.response ⟨200, ⟨stopBody, some 3⟩⟩))
        (bytes "spot/instance-action") = ⟨bytes "\x7b\"a", none, []⟩ ∧
    (getMetadata exampleCollector (labelledService (.response ⟨200, ⟨stopBody, some 3⟩⟩))
        (bytes "spot/instance-action")).value ≠ stopBody := by
  decide

/-- C6 (amended): `getMetadata(path)` asks for `endpoint + path`. A failed
request gives the empty string and the error; a response with status 404 gives
the empty string and no error, whatever the body; a response with any other
status gives, with no error, the bytes that reading the body delivered, which
are the full body when reading did not break off. An error is returned exactly
when the request failed. -/
theorem getMetadata_classifies (c : terminationCollector) (client : Client) (path : GoString) :
    (∀ e, client (c.metadataEndpoint ++ path) = .failure e →
      (getMetadata c client path).value = [] ∧ (getMetadata c client path).err = some e) ∧
    (∀ r, client (c.metadataEndpoint ++ path) = .response r → r.StatusCode = 404 →
      (getMetadata c client path).value = [] ∧ (getMetadata c client path).err = none) ∧
    (∀ r, client (c.metadataEndpoint ++ path) = .response r → r.StatusCode ≠ 404 →
      (getMetadata c client path).value = (ReadAll r.Body).1 ∧
      (getMetadata c client path).err = none ∧
      (r.Body.failAfter = none → (getMetadata c client path).value = r.Body.content)) ∧
    ((getMetadata c client path).err.isSome = true ↔
      ∃ e, client (c.metadataEndpoint ++ path) = .failure e) := by
  refine ⟨?_, ?_, ?_, ?_⟩
  · intro e h
    simp [getMetadata, h]
  · intro r h h404
    simp [getMetadata, h, h404]
  · intro r h h404
    refine ⟨by simp [getMetadata, h, h404], by simp [getMetadata, h, h404], ?_⟩
    intro hfull
    simp [getMetadata, h, h404, ReadAll, hfull]
  · cases h : client (c.metadataEndpoint ++ path) with
    | failure e => simp [getMetadata, h]
    | response r =>
      by_cases h404 : r.StatusCode = 404 <;> simp [getMetadata, h, h404]

/-- Instances of the classification of `getMetadata`: a failed request, a 404
with a body, and a 200 whose body reads to the end. -/
theorem getMetadata_classifies_witness :
    ((getMetadata exampleCollector (labelledService (.failure "timeout"))
        (bytes "spot/instance-action")).value = [] ∧
      (getMetadata exampleCollector (labelledService (.failure "timeout"))
        (bytes "spot/instance-action")).err = some "timeout") ∧
    ((getMetadata exampleCollector (labelledService notFound)
        (bytes "spot/instance-action")).value = [] ∧
      (getMetadata exampleCollector (labelledService notFound)
        (bytes "spot/instance-action")).err = none) ∧
    (getMetadata exampleCollector (labelledService (ok200 emptyObjectBody))
        (bytes "spot/instance-action")).value = emptyObjectBody :=
  ⟨(getMetadata_classifies exampleCollector (labelledService (.failure "timeout"))
      (bytes "spot/instance-action")).1 "timeout" (by decide),
   (getMetadata_classifies exampleCollector (labelledService notFound)
      (bytes "spot/instance-action")).2.1 ⟨404, ⟨bytes "Not Found", none⟩⟩ (by decide)
      (by decide),
   ((getMetadata_classifies exampleCollector (labelledService (ok200 emptyObjectBody))
      (bytes "spot/instance-action")).2.2.1 ⟨200, ⟨emptyObjectBody, none⟩⟩ (by decide)
      (by decide)).2.2 rfl⟩

/-! ## `Collect` -/

/-- C1: whatever the four label fetches give, a transport error on the fetch of
`spot/instance-action` makes `Collect` send nothing. -/
theorem collect_action_transport_error (c : terminationCollector) (client : Client) (now : Time)
    (e : String)
    (h : client (c.metadataEndpoint ++ bytes "spot/instance-action") = .failure e) :
    (Collect c client now).sent = [] := by
  have herr : (getMetadata c client (bytes "spot/instance-action")).err = some e := by
    simp [getMetadata, h]
  exact (collect_of_fetch_error c client now e herr).1

theorem collect_action_transport_error_witness :
    labelledService (.failure "timeout")
        (exampleCollector.metadataEndpoint ++ bytes "spot/instance-action") =
      .failure "timeout" ∧
    (Collect exampleCollector (labelledService (.failure "timeout")) exampleNow).sent = [] :=
  ⟨by decide, collect_action_transport_error exampleCollector
    (labelledService (.failure "timeout")) exampleNow "timeout" (by decide)⟩

/-- C3 (as stated, refuted): the action fetch answers 404, so it gives the empty
value and no error, and the hostname fetch gives the byte 0xFF. `Collect` sends
no sample: `MustNewConstMetric` panics on the label value that is not UTF-8. -/
theorem collect_absent_invalid_label :
    (getMetadata exampleCollector (badHostnameService notFound)
      (bytes "spot/instance-action")).err = none ∧
    (getMetadata exampleCollector (badHostnameService notFound)
      (bytes "spot/instance-action")).value = [] ∧
    (Collect exampleCollector (badHostnameService notFound) exampleNow).sent = [] ∧
    (Collect exampleCollector (badHostnameService notFound) exampleNow).panic =
      some .invalidUTF8 ∧
    (Collect exampleCollector (badHostnameService notFound) exampleNow).sent ≠
      [⟨exampleCollector.terminationIndicator, .lit 0,
        [bytes "us-east-1a", [0xFF], bytes "i-0abc", bytes "m5.large", []]⟩] := by
  decide

/-- C3 (amended): when the fetch of `spot/instance-action` gives the empty string
and no error, a collector built by `NewTerminationCollector` sends exactly one
sample, the indicator with value 0, the four fetched label values and
`instance_action = ""`, provided the four fetched label values are valid UTF-8;
when one of them is not, `MustNewConstMetric` panics and nothing is sent. -/
theorem collect_action_absent (calls : List Call) (me : GoString) (c : terminationCollector)
    (client : Client) (now : Time)
    (hc : c = (NewTerminationCollector (initGlobals.after calls) me).1)
    (herr : (getMetadata c client (bytes "spot/instance-action")).err = none)
    (hval : (getMetadata c client (bytes "spot/instance-action")).value = []) :
    ((fetchedLabels c client).all ValidString = true →
      (Collect c client now).sent =
        [⟨c.terminationIndicator, .lit 0,
          [(getMetadata c client (bytes "placement/availability-zone")).value,
           (getMetadata c client (bytes "hostname")).value,
           (getMetadata c client (bytes "instance-id")).value,
           (getMetadata c client (bytes "instance-type")).value, []]⟩] ∧
      (Collect c client now).panic = none) ∧
    ((fetchedLabels c client).all ValidString = false →
      (Collect c client now).sent = [] ∧
      (Collect c client now).panic = some .invalidUTF8) := by
  have hI : c.terminationIndicator.variableLabels.len = 5 := by
    rw [hc]; exact (collector_lens calls me).1
  exact ⟨fun hv => collect_of_absent c client now hI herr hval hv,
    fun hv => collect_of_invalid c client now hI herr hv⟩

theorem collect_action_absent_witness :
    (Collect exampleCollector (labelledService notFound) exampleNow).sent =
      [⟨exampleCollector.terminationIndicator, .lit 0,
        [bytes "us-east-1a", bytes "ip-10-0-0-1", bytes "i-0abc", bytes "m5.large", []]⟩] ∧
    (Collect exampleCollector (badHostnameService notFound) exampleNow).sent = [] :=
  ⟨((collect_action_absent [] (bytes "http://m/") exampleCollector (labelledService notFound)
      exampleNow rfl (by decide) (by decide)).1 (by decide)).1,
   ((collect_action_absent [] (bytes "http://m/") exampleCollector
      (badHostnameService notFound) exampleNow rfl (by decide) (by decide)).2 (by decide)).1⟩

/-- C4 (as stated, refuted): the action body is not JSON and the hostname fetch
gives the byte 0xFF. `Collect` sends no sample: `MustNewConstMetric` panics on
the label value that is not UTF-8. -/
theorem collect_undecodable_invalid_label :
    Unmarshal htmlBody = .error .syntaxError ∧
    (getMetadata exampleCollector (badHostnameService (ok200 htmlBody))
      (bytes "spot/instance-action")).value = htmlBody ∧
    (Collect exampleCollector (badHostnameService (ok200 htmlBody)) exampleNow).sent = [] ∧
    (Collect exampleCollector (badHostnameService (ok200 htmlBody)) exampleNow).panic =
      some .invalidUTF8 := by
  decide

/-- C4 (amended): when the fetch of `spot/instance-action` gives a non-empty body
whose decoding fails, a collector built by `NewTerminationCollector` does not
abort: it sends exactly one sample, the indicator with value 0, the four fetched
label values and `instance_action = ""` (not the body), provided the four
fetched label values are valid UTF-8; when one of them is not,
`MustNewConstMetric` panics and nothing is sent. -/
theorem collect_action_undecodable (calls : List Call) (me : GoString)
    (c : terminationCollector) (client : Client) (now : Time) (body : GoString) (e : JsonError)
    (hc : c = (NewTerminationCollector (initGlobals.after calls) me).1)
    (herr : (getMetadata c client (bytes "spot/instance-action")).err = none)
    (hval : (getMetadata c client (bytes "spot/instance-action")).value = body)
    (hbody : body ≠ [])
    (hdec : Unmarshal body = .error e) :
    ((fetchedLabels c client).all ValidString = true →
      (Collect c client now).sent =
        [⟨c.terminationIndicator, .lit 0,
          [(getMetadata c client (bytes "placement/availability-zone")).value,
           (getMetadata c client (bytes "hostname")).value,
           (getMetadata c client (bytes "instance-id")).value,
           (getMetadata c client (bytes "instance-type")).value, []]⟩] ∧
      (Collect c client now).panic = none) ∧
    ((fetchedLabels c client).all ValidString = false →
      (Collect c client now).sent = [] ∧
      (Collect c client now).panic = some .invalidUTF8) := by
  have hI : c.terminationIndicator.variableLabels.len = 5 := by
    rw [hc]; exact (collector_lens calls me).1
  subst hval
  exact ⟨fun hv => collect_of_decode_error c client now e hI herr hbody hdec hv,
    fun hv => collect_of_invalid c client now hI herr hv⟩

theorem collect_action_undecodable_witness :
    Unmarshal htmlBody = .error .syntaxError ∧
    (Collect exampleCollector (labelledService (ok200 htmlBody)) exampleNow).sent =
      [⟨exampleCollector.terminationIndicator, .lit 0,
        [bytes "us-east-1a", bytes "ip-10-0-0-1", bytes "i-0abc", bytes "m5.large", []]⟩] ∧
    (Collect exampleCollector (labelledService (ok200 htmlBody)) exampleNow).panic = none :=
  ⟨by decide, (collect_action_undecodable [] (bytes "http://m/") exampleCollector
    (labelledService (ok200 htmlBody)) exampleNow htmlBody .syntaxError
    rfl (by decide) (by decide) (by decide) (by decide)).1 (by decide)⟩

/-- C2 (as stated, refuted): (1) the action body decodes to `terminate` and the
time 9999-12-31T23:59:59Z; at 2026-11-04T12:00:00Z the time sample is sent, but
its value is the maximum duration (about 292 years), not `t − now`. (2) With the
notice for 12:02:00 and a hostname fetch that gives the byte 0xFF, nothing is
sent: `MustNewConstMetric` panics on the label value that is not UTF-8. -/
theorem collect_far_future_saturates :
    Unmarshal farFutureBody = .ok ⟨bytes "terminate", 253402300799 * 1000000000⟩ ∧
    (0 : Int) < 253402300799 * 1000000000 - exampleNow ∧
    (Collect exampleCollector (labelledService (ok200 farFutureBody)) exampleNow).sent =
      [⟨exampleCollector.terminationIndicator, .lit 1,
          [bytes "us-east-1a", bytes "ip-10-0-0-1", bytes "i-0abc", bytes "m5.large",
            bytes "terminate"]⟩,
       ⟨exampleCollector.terminationTime, .seconds 9223372036854775807,
          [bytes "us-east-1a", bytes "ip-10-0-0-1", bytes "i-0abc", bytes "m5.large"]⟩] ∧
    (Collect exampleCollector (labelledService (ok200 farFutureBody)) exampleNow).sent ≠
      [⟨exampleCollector.terminationIndicator, .lit 1,
          [bytes "us-east-1a", bytes "ip-10-0-0-1", bytes "i-0abc", bytes "m5.large",
            bytes "terminate"]⟩,
       ⟨exampleCollector.terminationTime, .seconds (253402300799 * 1000000000 - exampleNow),
          [bytes "us-east-1a", bytes "ip-10-0-0-1", bytes "i-0abc", bytes "m5.large"]⟩] ∧
    Unmarshal noticeBody = .ok ⟨bytes "terminate", 1793793720 * 1000000000⟩ ∧
    (Collect exampleCollector (badHostnameService (ok200 noticeBody)) exampleNow).sent = [] ∧
    (Collect exampleCollector (badHostnameService (ok200 noticeBody)) exampleNow).panic =
      some .invalidUTF8 := by
  decide

/-- C2 (amended): when the action body decodes to an action `a` and a time `t`
and the four fetched label values are valid UTF-8, a collector built by
`NewTerminationCollector` sends the indicator with value 1, the four fetched
label values and `instance_action = a`; then, exactly when `t − now > 0`, the
time sample with the four fetched label values, whose value in seconds is
`t − now` capped at the maximum duration; nothing else is sent. When a fetched
label value is not valid UTF-8, `MustNewConstMetric` panics and nothing is
sent. -/
theorem collect_action_decoded (calls : List Call) (me : GoString) (c : terminationCollector)
    (client : Client) (now : Time) (body a : GoString) (t : Time)
    (hc : c = (NewTerminationCollector (initGlobals.after calls) me).1)
    (herr : (getMetadata c client (bytes "spot/instance-action")).err = none)
    (hval : (getMetadata c client (bytes "spot/instance-action")).value = body)
    (hdec : Unmarshal body = .ok ⟨a, t⟩) :
    ((fetchedLabels c client).all ValidString = true →
      (Collect c client now).sent =
        (if 0 < t - now then
          [⟨c.terminationIndicator, .lit 1,
              [(getMetadata c client (bytes "placement/availability-zone")).value,
               (getMetadata c client (bytes "hostname")).value,
               (getMetadata c client (bytes "instance-id")).value,
               (getMetadata c client (bytes "instance-type")).value, a]⟩,
           ⟨c.terminationTime, .seconds (min (t - now) maxDuration),
              [(getMetadata c client (bytes "placement/availability-zone")).value,
               (getMetadata c client (bytes "hostname")).value,
               (getMetadata c client (bytes "instance-id")).value,
               (getMetadata c client (bytes "instance-type")).value]⟩]
        else
          [⟨c.terminationIndicator, .lit 1,
              [(getMetadata c client (bytes "placement/availability-zone")).value,
               (getMetadata c client (bytes "hostname")).value,
               (getMetadata c client (bytes "instance-id")).value,
               (getMetadata c client (bytes "instance-type")).value, a]⟩]) ∧
      (Collect c client now).panic = none) ∧
    ((fetchedLabels c client).all ValidString = false →
      (Collect c client now).sent = [] ∧
      (Collect c client now).panic = some .invalidUTF8) := by
  have hI : c.terminationIndicator.variableLabels.len = 5 := by
    rw [hc]; exact (collector_lens calls me).1
  have hT : c.terminationTime.variableLabels.len = 4 := by
    rw [hc]; exact (collector_lens calls me).2.1
  subst hval
  refine ⟨?_, fun hv => collect_of_invalid c client now hI herr hv⟩
  intro hv
  obtain ⟨hs, hp⟩ := collect_of_decoded c client now ⟨a, t⟩ hI hT herr hdec hv
  refine ⟨?_, hp⟩
  dsimp only at hs
  rw [hs]
  by_cases hpos : 0 < t - now
  · have h1 : 0 < Time.Sub t now := (sub_pos_iff t now).2 hpos
    rw [if_pos h1, if_pos hpos, sub_of_pos t now hpos]
    rfl
  · have h1 : ¬ 0 < Time.Sub t now := fun h => hpos ((sub_pos_iff t now).1 h)
    rw [if_neg h1, if_neg hpos]
    rfl

theorem collect_action_decoded_witness :
    Unmarshal noticeBody = .ok ⟨bytes "terminate", 1793793720 * 1000000000⟩ ∧
    (Collect exampleCollector (labelledService (ok200 noticeBody)) exampleNow).sent =
      [⟨exampleCollector.terminationIndicator, .lit 1,
          [bytes "us-east-1a", bytes "ip-10-0-0-1", bytes "i-0abc", bytes "m5.large",
            bytes "terminate"]⟩,
       ⟨exampleCollector.terminationTime, .seconds 120000000000,
          [bytes "us-east-1a", bytes "ip-10-0-0-1", bytes "i-0abc", bytes "m5.large"]⟩] :=
  ⟨by decide, (((collect_action_decoded [] (bytes "http://m/") exampleCollector
    (labelledService (ok200 noticeBody)) exampleNow noticeBody (bytes "terminate")
    (1793793720 * 1000000000) rfl (by decide) (by decide) (by decide)).1
      (by decide)).1).trans (by decide)⟩

/-- C5 (as stated, refuted): the payloads `{}` and `{"action": "terminate"}` are
valid JSON with fields missing, yet `Collect` sends the indicator with value 1
(and `instance_action` as decoded), logs that the endpoint is available, and
logs no parse error. -/
theorem collect_missing_fields_indicator_one :
    (Collect exampleCollector (labelledService (ok200 emptyObjectBody)) exampleNow).sent =
      [⟨exampleCollector.terminationIndicator, .lit 1,
        [bytes "us-east-1a", bytes "ip-10-0-0-1", bytes "i-0abc", bytes "m5.large", []]⟩] ∧
    (Collect exampleCollector (labelledService (ok200 emptyObjectBody)) exampleNow).sent ≠
      [⟨exampleCollector.terminationIndicator, .lit 0,
        [bytes "us-east-1a", bytes "ip-10-0-0-1", bytes "i-0abc", bytes "m5.large", []]⟩] ∧
    (Collect exampleCollector (labelledService (ok200 actionOnlyBody)) exampleNow).sent =
      [⟨exampleCollector.terminationIndicator, .lit 1,
        [bytes "us-east-1a", bytes "ip-10-0-0-1", bytes "i-0abc", bytes "m5.large",
          bytes "terminate"]⟩] ∧
    (⟨.error, "Couldn't parse instance-action metadata: %s"⟩ : LogEntry) ∉
      (Collect exampleCollector (labelledService (ok200 emptyObjectBody)) exampleNow).log ∧
    (⟨.info, "instance-action endpoint available, termination time: %v"⟩ : LogEntry) ∈
      (Collect exampleCollector (labelledService (ok200 emptyObjectBody)) exampleNow).log := by
  decide

/-- C5 (amended): let the action payload be a JSON object and the four fetched
label values valid UTF-8. If some member is malformed (its key selects `action`
and its value is neither a string nor `null`, or its key selects `time` and its
value is neither `null` nor a string that `Time.UnmarshalJSON` parses), a
collector built by `NewTerminationCollector` sends exactly one sample, the
indicator with value 0 and `instance_action = ""`, and logs the parse error. If
no member is malformed, decoding succeeds whatever is missing: a missing
`action` leaves the empty string, a missing `time` the zero time, and the
indicator is sent with value 1 and the decoded action, followed by the time
sample exactly when the decoded time lies after `now`. -/
theorem collect_action_object (calls : List Call) (me : GoString) (c : terminationCollector)
    (client : Client) (now : Time) (body : GoString) (ms : List (List Nat × JValue))
    (hc : c = (NewTerminationCollector (initGlobals.after calls) me).1)
    (herr : (getMetadata c client (bytes "spot/instance-action")).err = none)
    (hval : (getMetadata c client (bytes "spot/instance-action")).value = body)
    (hparse : parseJSON body = some (.object ms))
    (hv : (fetchedLabels c client).all ValidString = true) :
    ((∃ m ∈ ms, memberMalformed m = true) →
      (Collect c client now).sent =
        [⟨c.terminationIndicator, .lit 0,
          [(getMetadata c client (bytes "placement/availability-zone")).value,
           (getMetadata c client (bytes "hostname")).value,
           (getMetadata c client (bytes "instance-id")).value,
           (getMetadata c client (bytes "instance-type")).value, []]⟩] ∧
      (⟨.error, "Couldn't parse instance-action metadata: %s"⟩ : LogEntry) ∈
        (Collect c client now).log) ∧
    ((∀ m ∈ ms, memberMalformed m = false) →
      ∃ ia, Unmarshal body = .ok ia ∧
        ((∀ m ∈ ms, keyMatches "action" (unquote m.1) = false) → ia.Action = []) ∧
        ((∀ m ∈ ms, keyMatches "time" (unquote m.1) = false) → ia.Time = zeroTime) ∧
        (Collect c client now).sent =
          ⟨c.terminationIndicator, .lit 1,
            [(getMetadata c client (bytes "placement/availability-zone")).value,
             (getMetadata c client (bytes "hostname")).value,
             (getMetadata c client (bytes "instance-id")).value,
             (getMetadata c client (bytes "instance-type")).value, ia.Action]⟩ ::
          (if 0 < Time.Sub ia.Time now then
            [⟨c.terminationTime, .seconds (Time.Sub ia.Time now),
              [(getMetadata c client (bytes "placement/availability-zone")).value,
               (getMetadata c client (bytes "hostname")).value,
               (getMetadata c client (bytes "instance-id")).value,
               (getMetadata c client (bytes "instance-type")).value]⟩]
          else [])) := by
  have hI : c.terminationIndicator.variableLabels.len = 5 := by
    rw [hc]; exact (collector_lens calls me).1
  have hT : c.terminationTime.variableLabels.len = 4 := by
    rw [hc]; exact (collector_lens calls me).2.1
  have hU : Unmarshal body = decodeValue (.object ms) := by
    simp only [Unmarshal, hparse]
  have hne : body ≠ [] := by
    intro h0
    rw [h0] at hparse
    have h1 : parseJSON [] = none := rfl
    rw [h1] at hparse
    cases hparse
  subst hval
  refine ⟨?_, ?_⟩
  · intro hbad
    obtain ⟨e, he⟩ := decodeValue_object_of_malformed ms hbad
    rw [← hU] at he
    exact ⟨(collect_of_decode_error c client now e hI herr hne he hv).1,
      collect_log_of_decode_error c client now e herr hne he⟩
  · intro hgood
    obtain ⟨ia, hia, ha, ht⟩ := decodeValue_object_of_wellformed ms hgood
    rw [← hU] at hia
    exact ⟨ia, hia, ha, ht, (collect_of_decoded c client now ia hI hT herr hia hv).1⟩

theorem collect_action_object_witness :
    ((Collect exampleCollector (labelledService (ok200 badTimeBody)) exampleNow).sent =
      [⟨exampleCollector.terminationIndicator, .lit 0,
        [bytes "us-east-1a", bytes "ip-10-0-0-1", bytes "i-0abc", bytes "m5.large", []]⟩] ∧
      (⟨.error, "Couldn't parse instance-action metadata: %s"⟩ : LogEntry) ∈
        (Collect exampleCollector (labelledService (ok200 badTimeBody)) exampleNow).log) ∧
    (∃ ia, Unmarshal shortHourBody = .ok ia ∧
        ((∀ m ∈ [(bytes "action", JValue.string (bytes "terminate")),
            (bytes "time", JValue.string (bytes "2026-11-05T9:02:00Z"))],
          keyMatches "action" (unquote m.1) = false) → ia.Action = []) ∧
        ((∀ m ∈ [(bytes "action", JValue.string (bytes "terminate")),
            (bytes "time", JValue.string (bytes "2026-11-05T9:02:00Z"))],
          keyMatches "time" (unquote m.1) = false) → ia.Time = zeroTime) ∧
        (Collect exampleCollector (labelledService (ok200 shortHourBody)) exampleNow).sent =
          ⟨exampleCollector.terminationIndicator, .lit 1,
            [bytes "us-east-1a", bytes "ip-10-0-0-1", bytes "i-0abc", bytes "m5.large",
              ia.Action]⟩ ::
          (if 0 < Time.Sub ia.Time exampleNow then
            [⟨exampleCollector.terminationTime, .seconds (Time.Sub ia.Time exampleNow),
              [bytes "us-east-1a", bytes "ip-10-0-0-1", bytes "i-0abc", bytes "m5.large"]⟩]
          else [])) ∧
    (Collect exampleCollector (labelledService (ok200 shortHourBody)) exampleNow).sent =
      [⟨exampleCollector.terminationIndicator, .lit 1,
          [bytes "us-east-1a", bytes "ip-10-0-0-1", bytes "i-0abc", bytes "m5.large",
            bytes "terminate"]⟩,
       ⟨exampleCollector.terminationTime, .seconds 75720000000000,
          [bytes "us-east-1a", bytes "ip-10-0-0-1", bytes "i-0abc", bytes "m5.large"]⟩] :=
  ⟨(collect_action_object [] (bytes "http://m/") exampleCollector
      (labelledService (ok200 badTimeBody)) exampleNow badTimeBody
      [(bytes "action", .string (bytes "terminate")), (bytes "time", .number (bytes "5"))]
      rfl (by decide) (by decide) rfl (by decide)).1
        ⟨(bytes "time", .number (bytes "5")), by simp, by decide⟩,
   (collect_action_object [] (bytes "http://m/") exampleCollector
      (labelledService (ok200 shortHourBody)) exampleNow shortHourBody
      [(bytes "action", .string (bytes "terminate")),
        (bytes "time", .string (bytes "2026-11-05T9:02:00Z"))]
      rfl (by decide) (by decide) rfl (by decide)).2 (by decide),
   by decide⟩

/-- Which metrics are sent, their values, the `instance_action` label and the
panic depend on the client only through the action fetch and through whether
the four fetched label values are all valid UTF-8. -/
theorem collect_congr_action (c : terminationCollector) (client client2 : Client) (now : Time)
    (hI : c.terminationIndicator.variableLabels.len = 5)
    (hT : c.terminationTime.variableLabels.len = 4)
    (h : client2 (c.metadataEndpoint ++ bytes "spot/instance-action") =
      client (c.metadataEndpoint ++ bytes "spot/instance-action"))
    (hV : (fetchedLabels c client2).all ValidString = (fetchedLabels c client).all ValidString) :
    (Collect c client2 now).sent.map (fun m => (m.desc, m.value, m.labelValues.drop 4)) =
      (Collect c client now).sent.map (fun m => (m.desc, m.value, m.labelValues.drop 4)) ∧
    (Collect c client2 now).panic = (Collect c client now).panic := by
  have hf := getMetadata_congr c client client2 (bytes "spot/instance-action") h
  cases herr : (getMetadata c client (bytes "spot/instance-action")).err with
  | some e =>
    have herr2 := herr
    rw [← hf] at herr2
    rw [(collect_of_fetch_error c client now e herr).1,
      (collect_of_fetch_error c client now e herr).2,
      (collect_of_fetch_error c client2 now e herr2).1,
      (collect_of_fetch_error c client2 now e herr2).2]
    exact ⟨rfl, rfl⟩
  | none =>
    have herr2 := herr
    rw [← hf] at herr2
    cases hv : (fetchedLabels c client).all ValidString with
    | false =>
      have hv2 := hV.trans hv
      rw [(collect_of_invalid c client now hI herr hv).1,
        (collect_of_invalid c client now hI herr hv).2,
        (collect_of_invalid c client2 now hI herr2 hv2).1,
        (collect_of_invalid c client2 now hI herr2 hv2).2]
      exact ⟨rfl, rfl⟩
    | true =>
      have hv2 := hV.trans hv
      by_cases hval : (getMetadata c client (bytes "spot/instance-action")).value = []
      · have hval2 := hval
        rw [← hf] at hval2
        rw [(collect_of_absent c client now hI herr hval hv).1,
          (collect_of_absent c client now hI herr hval hv).2,
          (collect_of_absent c client2 now hI herr2 hval2 hv2).1,
          (collect_of_absent c client2 now hI herr2 hval2 hv2).2]
        simp [fetchedLabels_eq]
      · have hval2 := hval
        rw [← hf] at hval2
        cases hdec : Unmarshal (getMetadata c client (bytes "spot/instance-action")).value with
        | error e =>
          have hdec2 := hdec
          rw [← hf] at hdec2
          rw [(collect_of_decode_error c client now e hI herr hval hdec hv).1,
            (collect_of_decode_error c client now e hI herr hval hdec hv).2,
            (collect_of_decode_error c client2 now e hI herr2 hval2 hdec2 hv2).1,
            (collect_of_decode_error c client2 now e hI herr2 hval2 hdec2 hv2).2]
          simp [fetchedLabels_eq]
        | ok ia =>
          have hdec2 := hdec
          rw [← hf] at hdec2
          rw [(collect_of_decoded c client now ia hI hT herr hdec hv).1,
            (collect_of_decoded c client now ia hI hT herr hdec hv).2,
            (collect_of_decoded c client2 now ia hI hT herr2 hdec2 hv2).1,
            (collect_of_decoded c client2 now ia hI hT herr2 hdec2 hv2).2]
          by_cases hpos : 0 < Time.Sub ia.Time now <;> simp [fetchedLabels_eq, hpos]

/-- C7 (as stated, refuted): two services answer the action fetch alike (404).
With the hostname fetch giving the byte 0xFF nothing is sent; with a 404 on the
hostname fetch the indicator is sent. So the outcome of a label fetch does
change which samples are sent. -/
theorem collect_label_body_changes_emissions :
    badHostnameService notFound (exampleCollector.metadataEndpoint ++
        bytes "spot/instance-action") =
      serviceAt (ok200 (bytes "us-east-1a")) notFound (ok200 (bytes "i-0abc"))
        (ok200 (bytes "m5.large")) notFound
        (exampleCollector.metadataEndpoint ++ bytes "spot/instance-action") ∧
    (Collect exampleCollector (badHostnameService notFound) exampleNow).sent = [] ∧
    (Collect exampleCollector
      (serviceAt (ok200 (bytes "us-east-1a")) notFound (ok200 (bytes "i-0abc"))
        (ok200 (bytes "m5.large")) notFound) exampleNow).sent =
      [⟨exampleCollector.terminationIndicator, .lit 0,
        [bytes "us-east-1a", [], bytes "i-0abc", bytes "m5.large", []]⟩] := by
  decide

/-- C7 (amended): for a collector built by `NewTerminationCollector` and each of
the four label fetches (index `i`, path `p`): (1) a transport error or a 404 on
that fetch makes label value `i` the empty string in every sent metric, and the
empty string is valid UTF-8; (2) in every sent metric each of the four label
values is what its own fetch returned; (3) two services that answer the action
fetch alike, and whose fetched label values are either all valid UTF-8 in both
or not in both, make `Collect` send the same metrics with the same values and
the same `instance_action`, and panic alike. -/
theorem collect_label_fetch_degrades (calls : List Call) (me : GoString)
    (c : terminationCollector) (client : Client) (now : Time) (i : Nat) (p : GoString)
    (hc : c = (NewTerminationCollector (initGlobals.after calls) me).1)
    (hp : labelPaths[i]? = some p) :
    (((∃ e, client (c.metadataEndpoint ++ p) = .failure e) ∨
        (∃ r, client (c.metadataEndpoint ++ p) = .response r ∧ r.StatusCode = 404)) →
      ValidString (getMetadata c client p).value = true ∧
      ∀ m ∈ (Collect c client now).sent, m.labelValues[i]? = some []) ∧
    (∀ m ∈ (Collect c client now).sent, ∀ (j : Nat) (q : GoString), labelPaths[j]? = some q →
      m.labelValues[j]? = some (getMetadata c client q).value) ∧
    (∀ client2 : Client,
      client2 (c.metadataEndpoint ++ bytes "spot/instance-action") =
        client (c.metadataEndpoint ++ bytes "spot/instance-action") →
      (fetchedLabels c client2).all ValidString = (fetchedLabels c client).all ValidString →
      (Collect c client2 now).sent.map (fun m => (m.desc, m.value, m.labelValues.drop 4)) =
        (Collect c client now).sent.map (fun m => (m.desc, m.value, m.labelValues.drop 4)) ∧
      (Collect c client2 now).panic = (Collect c client now).panic) := by
  have hI : c.terminationIndicator.variableLabels.len = 5 := by
    rw [hc]; exact (collector_lens calls me).1
  have hT : c.terminationTime.variableLabels.len = 4 := by
    rw [hc]; exact (collector_lens calls me).2.1
  refine ⟨?_, ?_, ?_⟩
  · intro hfail
    have hempty : (getMetadata c client p).value = [] := by
      rcases hfail with ⟨e, he⟩ | ⟨r, hr, h404⟩
      · simp [getMetadata, he]
      · simp [getMetadata, hr, h404]
    refine ⟨by rw [hempty]; rfl, ?_⟩
    intro m hm
    rw [collect_labels_first c client now m hm i p hp, hempty]
  · intro m hm j q hq
    exact collect_labels_first c client now m hm j q hq
  · intro client2 h hV
    exact collect_congr_action c client client2 now hI hT h hV

theorem collect_label_fetch_degrades_witness :
    labelPaths[1]? = some (bytes "hostname") ∧
    (ValidString (getMetadata exampleCollector
        (serviceAt (ok200 (bytes "us-east-1a")) (.failure "timeout") (ok200 (bytes "i-0abc"))
          (ok200 (bytes "m5.large")) (ok200 noticeBody)) (bytes "hostname")).value = true ∧
      ∀ m ∈ (Collect exampleCollector
        (serviceAt (ok200 (bytes "us-east-1a")) (.failure "timeout") (ok200 (bytes "i-0abc"))
          (ok200 (bytes "m5.large")) (ok200 noticeBody))
        exampleNow).sent, m.labelValues[1]? = some []) ∧
    (Collect exampleCollector
        (serviceAt (ok200 (bytes "us-east-1a")) (.failure "timeout") (ok200 (bytes "i-0abc"))
          (ok200 (bytes "m5.large")) (ok200 noticeBody))
        exampleNow).sent =
      [⟨exampleCollector.terminationIndicator, .lit 1,
          [bytes "us-east-1a", [], bytes "i-0abc", bytes "m5.large", bytes "terminate"]⟩,
       ⟨exampleCollector.terminationTime, .seconds 120000000000,
          [bytes "us-east-1a", [], bytes "i-0abc", bytes "m5.large"]⟩] :=
  ⟨by decide,
   (collect_label_fetch_degrades [] (bytes "http://m/") exampleCollector
      (serviceAt (ok200 (bytes "us-east-1a")) (.failure "timeout") (ok200 (bytes "i-0abc"))
        (ok200 (bytes "m5.large")) (ok200 noticeBody))
      exampleNow 1 (bytes "hostname") rfl (by decide)).1 (Or.inl ⟨"timeout", by decide⟩),
   by decide⟩

/-- C8 (as stated, refuted): the same service is scraped at 12:00:00 and at
12:03:00, the notice time being 12:02:00. The first scrape sends the indicator
and the time sample, the second only the indicator: the two sequences do not
consist of the same metrics. -/
theorem collect_twice_time_sample_vanishes :
    exampleNow ≤ exampleNow + 180 * 1000000000 ∧
    ((Collect exampleCollector (labelledService (ok200 noticeBody))
        exampleNow).sent.map fun m => m.desc.fqName) =
      ["aws_instance_termination_imminent", "aws_instance_termination_in"] ∧
    ((Collect exampleCollector (labelledService (ok200 noticeBody))
        (exampleNow + 180 * 1000000000)).sent.map fun m => m.desc.fqName) =
      ["aws_instance_termination_imminent"] ∧
    ((Collect exampleCollector (labelledService (ok200 noticeBody))
        exampleNow).sent.map fun m => m.desc) ≠
    ((Collect exampleCollector (labelledService (ok200 noticeBody))
        (exampleNow + 180 * 1000000000)).sent.map fun m => m.desc) := by
  decide

/-- C8 (amended): for two runs of `Collect` against the same responses, the
second at a clock reading not earlier than the first: what the second run sends
first (the indicator, if any) is exactly what the first run sends first; the
second run sends no more samples than the first, and at most two; a time sample
of the second run has a time sample in the first run with the same label values
and a value not smaller. The first run may send a time sample that the second
run no longer sends. -/
theorem collect_twice (calls : List Call) (me : GoString) (c : terminationCollector)
    (client : Client) (now1 now2 : Time)
    (hc : c = (NewTerminationCollector (initGlobals.after calls) me).1)
    (hnow : now1 ≤ now2) :
    (Collect c client now2).sent.take 1 = (Collect c client now1).sent.take 1 ∧
    (Collect c client now2).sent.length ≤ (Collect c client now1).sent.length ∧
    (Collect c client now1).sent.length ≤ 2 ∧
    (∀ m2, (Collect c client now2).sent[1]? = some m2 →
      ∃ m1 d1 d2, (Collect c client now1).sent[1]? = some m1 ∧
        m1.desc = c.terminationTime ∧ m2.desc = c.terminationTime ∧
        m2.labelValues = m1.labelValues ∧
        m1.value = .seconds d1 ∧ m2.value = .seconds d2 ∧ d2 ≤ d1) := by
  have hI : c.terminationIndicator.variableLabels.len = 5 := by
    rw [hc]; exact (collector_lens calls me).1
  have hT : c.terminationTime.variableLabels.len = 4 := by
    rw [hc]; exact (collector_lens calls me).2.1
  cases herr : (getMetadata c client (bytes "spot/instance-action")).err with
  | some e =>
    rw [(collect_of_fetch_error c client now1 e herr).1,
      (collect_of_fetch_error c client now2 e herr).1]
    simp
  | none =>
    cases hv : (fetchedLabels c client).all ValidString with
    | false =>
      rw [(collect_of_invalid c client now1 hI herr hv).1,
        (collect_of_invalid c client now2 hI herr hv).1]
      simp
    | true =>
      by_cases hval : (getMetadata c client (bytes "spot/instance-action")).value = []
      · rw [(collect_of_absent c client now1 hI herr hval hv).1,
          (collect_of_absent c client now2 hI herr hval hv).1]
        simp
      · cases hdec : Unmarshal (getMetadata c client (bytes "spot/instance-action")).value with
        | error e =>
          rw [(collect_of_decode_error c client now1 e hI herr hval hdec hv).1,
            (collect_of_decode_error c client now2 e hI herr hval hdec hv).1]
          simp
        | ok ia =>
          rw [(collect_of_decoded c client now1 ia hI hT herr hdec hv).1,
            (collect_of_decoded c client now2 ia hI hT herr hdec hv).1]
          have hle := sub_antitone ia.Time now1 now2 hnow
          by_cases h2 : 0 < Time.Sub ia.Time now2
          · have h1 : 0 < Time.Sub ia.Time now1 := lt_of_lt_of_le h2 hle
            rw [if_pos h1, if_pos h2]
            refine ⟨rfl, le_refl _, by simp, ?_⟩
            intro m2 hm2
            simp only [List.getElem?_cons_succ, List.getElem?_cons_zero,
              Option.some.injEq] at hm2
            subst hm2
            exact ⟨_, _, _, rfl, rfl, rfl, rfl, rfl, rfl, hle⟩
          · by_cases h1 : 0 < Time.Sub ia.Time now1
            · rw [if_pos h1, if_neg h2]
              refine ⟨rfl, by simp, by simp, ?_⟩
              intro m2 hm2
              simp at hm2
            · rw [if_neg h1, if_neg h2]
              refine ⟨rfl, le_refl _, by simp, ?_⟩
              intro m2 hm2
              simp at hm2

theorem collect_twice_witness :
    exampleNow ≤ exampleNow + 60 * 1000000000 ∧
    (Collect exampleCollector (labelledService (ok200 noticeBody))
        (exampleNow + 60 * 1000000000)).sent.take 1 =
      (Collect exampleCollector (labelledService (ok200 noticeBody)) exampleNow).sent.take 1 ∧
    (Collect exampleCollector (labelledService (ok200 noticeBody))
        (exampleNow + 60 * 1000000000)).sent[1]? =
      some ⟨exampleCollector.terminationTime, .seconds 60000000000,
        [bytes "us-east-1a", bytes "ip-10-0-0-1", bytes "i-0abc", bytes "m5.large"]⟩ ∧
    (Collect exampleCollector (labelledService (ok200 noticeBody)) exampleNow).sent[1]? =
      some ⟨exampleCollector.terminationTime, .seconds 120000000000,
        [bytes "us-east-1a", bytes "ip-10-0-0-1", bytes "i-0abc", bytes "m5.large"]⟩ :=
  ⟨by decide,
   (collect_twice [] (bytes "http://m/") exampleCollector (labelledService (ok200 noticeBody))
      exampleNow (exampleNow + 60 * 1000000000) rfl (by decide)).1,
   by decide, by decide⟩

/-- C10: for a collector built by `NewTerminationCollector`, whatever the
fetches give, the label-count check of `MustNewConstMetric` never fails (the
only panic there can be is the one for a label value that is not valid UTF-8);
every sent metric has as many label values as its descriptor has label names;
paired in order with the label names read from the heap, the values are the
fetched availability zone, hostname, the instance ID and the instance type,
followed for the indicator by the action; at most two metrics are sent; and a
time sample is only ever the second metric, after an indicator of value 1. -/
theorem collect_well_labelled (calls : List Call) (me : GoString) (c : terminationCollector)
    (client : Client) (now : Time)
    (hc : c = (NewTerminationCollector (initGlobals.after calls) me).1) :
    (Collect c client now).panic ≠ some .inconsistentCardinality ∧
    (∀ m ∈ (Collect c client now).sent, m.labelValues.length = m.desc.variableLabels.len) ∧
    (∀ m ∈ (Collect c client now).sent,
      (m.desc = c.terminationIndicator ∧ ∃ a,
        (m.desc.labelNames (NewTerminationCollector (initGlobals.after calls) me).2.heap).zip
            m.labelValues =
          [("availability_zone",
              (getMetadata c client (bytes "placement/availability-zone")).value),
           ("hostname", (getMetadata c client (bytes "hostname")).value),
           ("instance_id", (getMetadata c client (bytes "instance-id")).value),
           ("instance_type", (getMetadata c client (bytes "instance-type")).value),
           ("instance_action", a)]) ∨
      (m.desc = c.terminationTime ∧
        (m.desc.labelNames (NewTerminationCollector (initGlobals.after calls) me).2.heap).zip
            m.labelValues =
          [("availability_zone",
              (getMetadata c client (bytes "placement/availability-zone")).value),
           ("hostname", (getMetadata c client (bytes "hostname")).value),
           ("instance_id", (getMetadata c client (bytes "instance-id")).value),
           ("instance_type", (getMetadata c client (bytes "instance-type")).value)])) ∧
    (Collect c client now).sent.length ≤ 2 ∧
    (∀ (i : Nat) (m : Metric), (Collect c client now).sent[i]? = some m →
      m.desc = c.terminationTime →
      i = 1 ∧ ∃ m0, (Collect c client now).sent[0]? = some m0 ∧
        m0.desc = c.terminationIndicator ∧ m0.value = .lit 1) := by
  have hI : c.terminationIndicator.variableLabels.len = 5 := by
    rw [hc]; exact (collector_lens calls me).1
  have hT : c.terminationTime.variableLabels.len = 4 := by
    rw [hc]; exact (collector_lens calls me).2.1
  obtain ⟨hnI, hnT, hne⟩ := collector_labelNames calls me
  rw [← hc] at hnI hnT hne
  refine ⟨?_, ?_⟩
  · rw [collect_panic c client now hI hT]
    split_ifs <;> simp
  rcases collect_sent_shape c client now with h | ⟨v, a, h⟩ | ⟨a, d, h⟩
  · rw [h]
    simp
  · rw [h]
    refine ⟨?_, ?_, by simp, ?_⟩
    · intro m hm
      simp only [List.mem_singleton] at hm
      subst hm
      simp [fetchedLabels_eq, hI]
    · intro m hm
      simp only [List.mem_singleton] at hm
      subst hm
      exact Or.inl ⟨rfl, a, by simp [hnI, fetchedLabels_eq]⟩
    · intro i m hm hd
      cases i with
      | zero =>
        simp only [List.getElem?_cons_zero, Option.some.injEq] at hm
        subst hm
        exact absurd hd hne
      | succ k => simp at hm
  · rw [h]
    refine ⟨?_, ?_, by simp, ?_⟩
    · intro m hm
      simp only [List.mem_cons, List.mem_singleton, List.not_mem_nil, or_false] at hm
      rcases hm with rfl | rfl
      · simp [fetchedLabels_eq, hI]
      · simp [fetchedLabels_eq, hT]
    · intro m hm
      simp only [List.mem_cons, List.mem_singleton, List.not_mem_nil, or_false] at hm
      rcases hm with rfl | rfl
      · exact Or.inl ⟨rfl, a, by simp [hnI, fetchedLabels_eq]⟩
      · exact Or.inr ⟨rfl, by simp [hnT, fetchedLabels_eq]⟩
    · intro i m hm hd
      cases i with
      | zero =>
        simp only [List.getElem?_cons_zero, Option.some.injEq] at hm
        subst hm
        exact absurd hd hne
      | succ k =>
        cases k with
        | zero => exact ⟨rfl, _, rfl, rfl, rfl⟩
        | succ j => simp at hm

theorem collect_well_labelled_witness :
    (Collect exampleCollector
        (serviceAt notFound (.failure "timeout") (ok200 (bytes "i-0abc"))
          (ok200 (bytes "m5.large")) (ok200 noticeBody))
        exampleNow).panic ≠ some .inconsistentCardinality ∧
    (Collect exampleCollector
        (serviceAt notFound (.failure "timeout") (ok200 (bytes "i-0abc"))
          (ok200 (bytes "m5.large")) (ok200 noticeBody))
        exampleNow).sent.map (fun m => (m.desc.fqName, m.labelValues.length)) =
      [("aws_instance_termination_imminent", 5), ("aws_instance_termination_in", 4)] :=
  ⟨(collect_well_labelled [] (bytes "http://m/") exampleCollector
      (serviceAt notFound (.failure "timeout") (ok200 (bytes "i-0abc"))
        (ok200 (bytes "m5.large")) (ok200 noticeBody))
      exampleNow rfl).1, by decide⟩

end SpotTermination
